import Mathlib

/-!
# Verus-Mobile transaction decoder: classification and formatting

Shallow embedding of `src/utils/crypto/txDecoder.js`.

Modelling conventions
* A JavaScript number is an IEEE 754 double (`JSNumber`): `num q` is the double nearest
  to the rational `q`, and `+`, `-`, `*` round the exact result to the nearest double,
  ties to even (`round53`). The exponent range is not modelled; the amounts of the source
  are 8-decimal strings between `10^-8` and `2^53 * 10^-8`, far from its limits.
  `Number(x.toFixed(8))` rounds the exact value of the double to 8 decimals, ties away
  from zero.
* The `value` field of a decoded output is the decimal string written by
  `(1e-8 * out.value).toFixed(8)`; it is represented by the rational it denotes.
  Such a string is never empty, hence always truthy.
* A thrown exception is the `Except.error` of the result.
* Calls into the external libraries (`bitgo-utxo-lib`, `tx-builder`,
  `react-native-crypto`) are parameters, collected in the structure `Lib`.
-/

set_option autoImplicit false

namespace VerusMobile

/-! ## Numbers -/

/-- The integer nearest to `num / den`, a tie going to the even one. -/
def roundHalfEven (num den : ℕ) : ℕ :=
  let fl := num / den
  let r := num % den
  if 2 * r < den then fl
  else if den < 2 * r then fl + 1
  else if fl % 2 = 0 then fl else fl + 1

/-- The number of halvings that bring `n` below 2, with at most `fuel` steps. -/
def log2Fuel : ℕ → ℕ → ℕ
  | 0, _ => 0
  | fuel + 1, n => if n < 2 then 0 else log2Fuel fuel (n / 2) + 1

/-- The position of the leading bit of `n`: the largest `k` with `2 ^ k ≤ n`. -/
def floorLog2 (n : ℕ) : ℕ := log2Fuel n n

/-- The exponent `e` of the double nearest to `n / d`: the one with
`2 ^ 52 ≤ (n / d) / 2 ^ e < 2 ^ 53`. -/
def binaryExponent (n d : ℕ) : ℤ :=
  let k : ℤ := (floorLog2 n : ℤ) - (floorLog2 d : ℤ)
  (if d * 2 ^ k.toNat ≤ n * 2 ^ (-k).toNat then k else k - 1) - 52

/-- The double nearest to the positive rational `n / d`: a significand of 53 bits, rounded
to nearest, ties to even, times a power of two. -/
def round53Pos (n d : ℕ) : ℚ :=
  let e := binaryExponent n d
  let m := roundHalfEven (n * 2 ^ (-e).toNat) (d * 2 ^ e.toNat)
  ((m * 2 ^ e.toNat : ℕ) : ℚ) / ((2 ^ (-e).toNat : ℕ) : ℚ)

/-- The value of the IEEE 754 double nearest to `q` (round to nearest, ties to even). The
exponent range is not modelled: no overflow to `Infinity` and no underflow. -/
def round53 (q : ℚ) : ℚ :=
  if q = 0 then 0
  else if 0 < q then round53Pos q.num.natAbs q.den
  else -round53Pos q.num.natAbs q.den

/-- A JavaScript number. `num q` is the number written `q`, that is `Number("q")`: the
double nearest to `q`; `negZero` is `-0`; `nan` is `NaN`. -/
inductive JSNumber where
  | num (q : ℚ)
  | negZero
  | nan
  deriving DecidableEq

namespace JSNumber

/-- JavaScript `a + b` on numbers: the double nearest to the sum of the two doubles. -/
def add : JSNumber → JSNumber → JSNumber
  | num a, num b => num (round53 (round53 a + round53 b))
  | num a, negZero => num (round53 a)
  | negZero, num b => num (round53 b)
  | negZero, negZero => negZero
  | _, _ => nan

/-- JavaScript `a - b` on numbers: the double nearest to the difference of the two
doubles. -/
def sub : JSNumber → JSNumber → JSNumber
  | num a, num b => num (round53 (round53 a - round53 b))
  | num a, negZero => num (round53 a)
  | negZero, num b => if round53 b = 0 then negZero else num (round53 (-round53 b))
  | negZero, negZero => num 0
  | _, _ => nan

/-- JavaScript `a > 0`. -/
def gtZero : JSNumber → Bool
  | num a => decide (0 < round53 a)
  | _ => false

/-- JavaScript `a < 0`. -/
def ltZero : JSNumber → Bool
  | num a => decide (round53 a < 0)
  | _ => false

/-- JavaScript `a === 0`. -/
def isZero : JSNumber → Bool
  | num a => decide (round53 a = 0)
  | negZero => true
  | nan => false

/-- Rounding of a rational to 8 decimals the way `toFixed(8)` does it: the sign is set
aside, the magnitude goes to the nearest multiple of `10^-8`, a tie to the larger one. -/
def roundTo8 (q : ℚ) : ℚ :=
  if q < 0 then -((⌊(-q) * 100000000 + 1 / 2⌋ : ℤ) / 100000000 : ℚ)
  else ((⌊q * 100000000 + 1 / 2⌋ : ℤ) / 100000000 : ℚ)

/-- JavaScript `Number(a.toFixed(8))`: the exact value of the double is rounded to 8
decimals and the string is read back. A negative number that rounds to zero gives the
string "-0.00000000", read back as `-0`; `(-0).toFixed(8)` is "0.00000000";
`NaN.toFixed(8)` is the string "NaN". -/
def toFixed8 : JSNumber → JSNumber
  | num a =>
    if round53 a < 0 ∧ roundTo8 (round53 a) = 0 then negZero
    else num (roundTo8 (round53 a))
  | negZero => num 0
  | nan => nan

end JSNumber

/-! ## Data model -/

/-- The `scriptPubKey` object of a decoded output (`decodeOutput`). -/
structure ScriptPubKey where
  asm : String
  hex : String
  type : String
  addresses : List String
  deriving DecidableEq

/-- A decoded output, as built by `format` inside `decodeOutput`. `value` is the number
denoted by the 8-decimal string of the source. -/
structure Vout where
  satoshi : Nat
  value : ℚ
  n : Nat
  scriptPubKey : ScriptPubKey
  deriving DecidableEq

/-- One element of `tx.inputs` or `tx.outputs` as `parseTransactionAddresses` reads it. -/
inductive TxEntry where
  /-- a decoded output object -/
  | vout (o : Vout)
  /-- the value `false` pushed by `formatTx` for an input without a decoded parent -/
  | unresolved
  /-- the value `undefined`, what indexing an array out of range gives -/
  | undefined
  /-- the array `tx[key]` itself, pushed when `tx[key].length` is falsy -/
  | container
  deriving DecidableEq

/-- The `format` object built by `decodeFormat`. -/
structure TxFormat where
  txid : String
  version : Int
  locktime : Nat
  deriving DecidableEq

/-- The `format` field of the transaction handed to the classifier: the string
`'cant parse'` or a `decodeFormat` object. -/
inductive FormatField where
  | cantParse
  | decoded (f : TxFormat)
  deriving DecidableEq

/-- The transaction object `parseTransactionAddresses` receives. -/
structure ParsedTx where
  format : FormatField
  inputs : List TxEntry
  outputs : List TxEntry
  height : Int
  timestamp : Int
  confirmations : Int

/-- The `amount` field of a record: a number, or the string `'unknown'`. -/
inductive Amount where
  | number (x : JSNumber)
  | unknown
  deriving DecidableEq

/-- A decoded input, as built by `decodeInput`, or the coinbase placeholder
`{ txid: '00…0' }`, which has no other field. -/
structure Vin where
  txid : String
  n : Option Nat
  script : Option String
  sequence : Option Nat
  deriving DecidableEq

/-- The fields `formatTx` adds to a record that has a `type`. -/
structure Stamp where
  height : Int
  blocktime : Int
  hex : Option String
  inputs : List Vin
  outputs : List Vout
  locktime : Nat
  deriving DecidableEq

/-- A classification record. An absent field is `none`; `address` is `none` when the
source reads `_addresses.outputs[0]` of an empty list, `txid` is `none` when the source
reads `.txid` of the string `'cant parse'`. The fields `from` and `to` of the source are
`from_` and `to_`; the fields added by `formatTx` are gathered in `stamp`. -/
structure TxRecord where
  type : String
  amount : Amount
  fee : Option JSNumber
  interest : Option JSNumber
  address : Option String
  timestamp : Int
  txid : Option String
  confirmations : Int
  from_ : Option (List String)
  to_ : Option (List String)
  stamp : Option Stamp
  deriving DecidableEq

/-- What `parseTransactionAddresses` returns: one record object, or an array of records. -/
inductive ParseResult where
  | single (r : TxRecord)
  | array (rs : List TxRecord)
  deriving DecidableEq

/-- The records of a result, in order. -/
def ParseResult.records : ParseResult → List TxRecord
  | .single r => [r]
  | .array rs => rs

/-- A thrown JavaScript exception. -/
inductive Fault where
  | typeError
  | libraryError
  deriving DecidableEq

/-! ## parseTransactionAddresses -/

/-- The three accumulators of one side: `_total[key]`, `_sum[key]`, `_addresses[key]`. -/
structure SideAcc where
  total : JSNumber
  sum : JSNumber
  addresses : List String
  deriving DecidableEq

/-- `Number(e.value)`: the value of a decoded output, `NaN` for `Number(undefined)`. -/
def entryNumber : TxEntry → JSNumber
  | .vout o => .num o.value
  | _ => .nan

/-- The guard `e.scriptPubKey && e.scriptPubKey.addresses && e.scriptPubKey.addresses[0]`:
the first address when it exists and is a non-empty string. -/
def entryAddress : TxEntry → Option String
  | .vout o =>
    match o.scriptPubKey.addresses with
    | a :: _ => if a ≠ "" then some a else none
    | [] => none
  | _ => none

/-- One iteration of the inner loop, lines 241-264. Reading `.value` of `undefined` throws. -/
def scanEntry (targetAddress : String) (skipTargetAddress : Bool) (acc : SideAcc) :
    TxEntry → Except Fault SideAcc
  | .undefined => .error .typeError
  | e =>
    let total := acc.total.add (entryNumber e)
    match entryAddress e with
    | none => .ok { total := total, sum := acc.sum, addresses := acc.addresses }
    | some a =>
      -- `_parse[key][i].value` is a non-empty string here, hence truthy
      let sum := if a = targetAddress then acc.sum.add (entryNumber e) else acc.sum
      let pushed := acc.addresses ++ [a]
      let addresses :=
        if a = targetAddress ∧ skipTargetAddress = true then pushed.dropLast else pushed
      .ok { total := total, sum := sum, addresses := addresses }

/-- The inner loop `for (let i = 0; i < _parse[key].length; i++)`. -/
def scanEntries (targetAddress : String) (skipTargetAddress : Bool) :
    List TxEntry → SideAcc → Except Fault SideAcc
  | [], acc => .ok acc
  | e :: es, acc =>
    match scanEntry targetAddress skipTargetAddress acc e with
    | .error f => .error f
    | .ok acc1 => scanEntries targetAddress skipTargetAddress es acc1

/-- Lines 234-239: a side whose `length` is falsy is replaced by the one-element array
holding the side itself. -/
def parseSide (side : List TxEntry) : List TxEntry :=
  if side.length = 0 then [TxEntry.container] else side

/-- Lines 233-265 for one key. -/
def scanSide (targetAddress : String) (skipTargetAddress : Bool) (side : List TxEntry) :
    Except Fault SideAcc :=
  scanEntries targetAddress skipTargetAddress (parseSide side)
    { total := .num 0, sum := .num 0, addresses := [] }

/-- The array `[ ...new Set(xs) ]`: insertion order, an element already present is skipped. -/
def setToArray (xs : List String) : List String :=
  xs.foldl (fun s a => if a ∈ s then s else s ++ [a]) []

/-- Lines 275-282 for one key: some element equals the target while the length is 1. -/
def isSelfSend (targetAddress : String) (addresses : List String) : Bool :=
  addresses.any (fun a => decide (a = targetAddress) && decide (addresses.length = 1))

/-- The `txid` read as `tx.format.txid`. -/
def FormatField.txid : FormatField → Option String
  | .cantParse => none
  | .decoded f => some f.txid

/-- Lines 267-374 of `parseTransactionAddresses`: de-duplication of the address lists,
the self-send flags and the decision table, on the accumulators of the two sides. -/
def classifySides (tx : ParsedTx) (targetAddress : String) (network : String)
    (ins outs : SideAcc) : ParseResult :=
  let addrIn := setToArray ins.addresses
  let addrOut := setToArray outs.addresses
  let selfIn := isSelfSend targetAddress addrIn
  let selfOut := isSelfSend targetAddress addrOut
  let vinVoutDiff := ins.total.sub outs.total
  if ins.sum.gtZero ∧ outs.sum.gtZero then
    if selfIn ∧ selfOut then
      let fee := vinVoutDiff.toFixed8
      .single
        { type := "self", amount := .number fee, fee := some fee,
          interest :=
            if network = "kmd" ∧ vinVoutDiff.ltZero then some vinVoutDiff.toFixed8 else none,
          address := some targetAddress, timestamp := tx.timestamp, txid := tx.format.txid,
          confirmations := tx.confirmations, from_ := none, to_ := none, stamp := none }
    else
      .array
        [ { type := "sent", amount := .number ins.sum.toFixed8,
            fee := some vinVoutDiff.toFixed8, interest := none,
            address := addrOut.head?, timestamp := tx.timestamp, txid := tx.format.txid,
            confirmations := tx.confirmations, from_ := some addrIn, to_ := some addrOut,
            stamp := none },
          { type := "received", amount := .number outs.sum.toFixed8, fee := none,
            interest :=
              if network = "kmd" ∧ vinVoutDiff.ltZero then some vinVoutDiff.toFixed8
              else none,
            address := some targetAddress, timestamp := tx.timestamp,
            txid := tx.format.txid, confirmations := tx.confirmations,
            from_ := some addrIn, to_ := some addrOut, stamp := none } ]
  else if ins.sum.isZero ∧ outs.sum.gtZero then
    .single
      { type := "received", amount := .number outs.sum.toFixed8, fee := none,
        interest := none, address := some targetAddress, timestamp := tx.timestamp,
        txid := tx.format.txid, confirmations := tx.confirmations,
        from_ := some addrIn, to_ := some addrOut, stamp := none }
  else if ins.sum.gtZero ∧ outs.sum.isZero then
    .single
      { type := "sent", amount := .number ins.sum.toFixed8,
        fee := some vinVoutDiff.toFixed8, interest := none,
        address := if selfIn ∧ selfOut then some targetAddress else addrOut.head?,
        timestamp := tx.timestamp, txid := tx.format.txid,
        confirmations := tx.confirmations, from_ := some addrIn, to_ := some addrOut,
        stamp := none }
  else
    .single
      { type := "other", amount := .unknown, fee := none, interest := none,
        address := some "unknown", timestamp := tx.timestamp, txid := tx.format.txid,
        confirmations := tx.confirmations, from_ := none, to_ := none, stamp := none }

/-- The function `parseTransactionAddresses`: the `'cant parse'` guard (lines 222-231), the
loop over the two sides (lines 233-265), then the decision table. -/
def parseTransactionAddresses (tx : ParsedTx) (targetAddress : String) (network : String)
    (skipTargetAddress : Bool) : Except Fault ParseResult :=
  if tx.format = .cantParse then
    .ok (.single
      { type := "unknown", amount := .unknown, fee := none, interest := none,
        address := some targetAddress, timestamp := tx.timestamp, txid := tx.format.txid,
        confirmations := tx.confirmations, from_ := none, to_ := none, stamp := none })
  else
    match scanSide targetAddress skipTargetAddress tx.inputs with
    | .error f => .error f
    | .ok ins =>
      match scanSide targetAddress skipTargetAddress tx.outputs with
      | .error f => .error f
      | .ok outs => .ok (classifySides tx targetAddress network ins outs)

/-! ## Resolved transactions -/

/-- A resolved transaction (the `_parsedTx` of `formatTx`): every input is a decoded
output or the unresolved marker `false`, every output is a decoded output. -/
structure ResolvedTransaction where
  format : TxFormat
  inputs : List (Option Vout)
  outputs : List Vout
  height : Int
  timestamp : Int
  confirmations : Int

/-- A resolved input as an array element: `none` is the value `false`. -/
def resolvedEntry : Option Vout → TxEntry
  | some o => .vout o
  | none => .unresolved

/-- The resolved transaction as the object the classifier receives. -/
def ResolvedTransaction.toParsedTx (rt : ResolvedTransaction) : ParsedTx :=
  { format := .decoded rt.format,
    inputs := rt.inputs.map resolvedEntry,
    outputs := rt.outputs.map TxEntry.vout,
    height := rt.height, timestamp := rt.timestamp, confirmations := rt.confirmations }

/-! ## TxDecoder -/

/-- The network descriptor, as far as this file reads it. -/
structure Network where
  isZcash : Bool
  coin : String
  deriving DecidableEq

/-- An entry of `rawIns`, also what `TxDecoder` receives as `rawtx`: a hex string, or an
object returned by the fetch layer, of which the fields `code` and `status` are read. -/
inductive RawTx where
  | hex (raw : String)
  | object (code : Option Int) (status : Option String)
  deriving DecidableEq

/-- The `hash` field of a library input: absent, already a string (it has no `reverse`), or
a buffer of bytes. -/
inductive HashField where
  | missing
  | text (s : String)
  | buffer (bytes : List Nat)
  deriving DecidableEq

/-- An element of `tx.ins` of the library transaction. -/
structure LibInput where
  hash : HashField
  index : Nat
  script : List Nat
  sequence : Nat
  deriving DecidableEq

/-- An element of `tx.outs` of the library transaction. -/
structure LibOutput where
  value : Nat
  script : List Nat
  deriving DecidableEq

/-- The transaction object returned by the library parser. The three shielded-pool fields
are kept by their truthiness only; `id` is what the built-in `getId()` returns. -/
structure LibTx where
  version : Int
  locktime : Nat
  ins : List LibInput
  outs : List LibOutput
  joinsplits : Bool
  vShieldedSpend : Bool
  vShieldedOutput : Bool
  id : String
  deriving DecidableEq

/-- The calls into the external libraries. A result `none` stands for a thrown exception. -/
structure Lib where
  /-- `bitcoin.Transaction.fromHex(rawtx, network)` -/
  fromHex : RawTx → Network → Option LibTx
  /-- the fallback reader `decodeTx(buffer)[0]` built from `tx-builder` -/
  decodeTx : List Nat → Option LibTx
  /-- `Buffer.from(rawtx, 'hex')` -/
  bufferFrom : RawTx → Option (List Nat)
  /-- `crypto.createHash('sha256').update(data).digest()` -/
  sha256 : List Nat → List Nat
  /-- `bitcoin.script.toASM(script)` -/
  toASM : List Nat → String
  /-- `bitcoin.script.classifyOutput(script)` -/
  classifyOutput : List Nat → String
  /-- `bitcoin.address.fromOutputScript(script, network)` -/
  fromOutputScript : List Nat → Network → Option String
  /-- `bitcoin.ECPair.fromPublicKeyBuffer(new Buffer(word, 'hex'), network).getAddress()` -/
  pubKeyAddress : String → Network → Option String

/-- The lower-case hex rendering of a buffer, `buffer.toString('hex')`. -/
def toHex (bytes : List Nat) : String :=
  String.mk (bytes.flatMap (fun b => [Nat.digitChar (b / 16 % 16), Nat.digitChar (b % 16)]))

/-- The function `decodeFormat`, with the value `getId()` returns passed in. -/
def decodeFormat (txid : String) (tx : LibTx) : TxFormat :=
  { txid := txid, version := tx.version, locktime := tx.locktime }

/-- The body of the `forEach` of `decodeInput`; reading `.reverse` of a missing hash throws. -/
def decodeInputEntry (lib : Lib) (input : LibInput) : Except Fault Vin :=
  match input.hash with
  | .missing => .error .typeError
  | .text s =>
    .ok { txid := s, n := some input.index, script := some (lib.toASM input.script),
          sequence := some input.sequence }
  | .buffer bytes =>
    .ok { txid := toHex bytes.reverse, n := some input.index,
          script := some (lib.toASM input.script), sequence := some input.sequence }

/-- The loop `tx.ins.forEach` of `decodeInput`. -/
def decodeInputFrom (lib : Lib) : List LibInput → Except Fault (List Vin)
  | [] => .ok []
  | input :: inputs =>
    match decodeInputEntry lib input with
    | .error f => .error f
    | .ok vin =>
      match decodeInputFrom lib inputs with
      | .error f => .error f
      | .ok vins => .ok (vin :: vins)

/-- The function `decodeInput`. -/
def decodeInput (lib : Lib) (tx : LibTx) : Except Fault (List Vin) :=
  decodeInputFrom lib tx.ins

/-- The inner function `format` of `decodeOutput`. The `value` is the decimal written by
`(1e-8 * out.value).toFixed(8)`: the product of two doubles, rounded to 8 decimals. -/
def formatOutput (lib : Lib) (out : LibOutput) (n : Nat) (network : Network) :
    Except Fault Vout :=
  let asm := lib.toASM out.script
  let type := lib.classifyOutput out.script
  let vout (addresses : List String) : Vout :=
    { satoshi := out.value,
      value := JSNumber.roundTo8 (round53 (round53 (1 / 100000000) * round53 out.value)),
      n := n,
      scriptPubKey := { asm := asm, hex := toHex out.script, type := type,
                        addresses := addresses } }
  if type = "pubkeyhash" ∨ type = "scripthash" then
    match lib.fromOutputScript out.script network with
    | some a => .ok (vout [a])
    | none => .error .libraryError
  else if type = "pubkey" then
    match lib.pubKeyAddress ((asm.splitOn " ").headD "") network with
    | some a => .ok (vout [a])
    | none => .error .libraryError
  else .ok (vout [])

/-- The loop `tx.outs.forEach` of `decodeOutput`, from index `n` on. -/
def decodeOutputFrom (lib : Lib) (network : Network) : List LibOutput → Nat →
    Except Fault (List Vout)
  | [], _ => .ok []
  | out :: outs, n =>
    match formatOutput lib out n network with
    | .error f => .error f
    | .ok v =>
      match decodeOutputFrom lib network outs (n + 1) with
      | .error f => .error f
      | .ok vs => .ok (v :: vs)

/-- The function `decodeOutput`. -/
def decodeOutput (lib : Lib) (tx : LibTx) (network : Network) : Except Fault (List Vout) :=
  decodeOutputFrom lib network tx.outs 0

/-- The inner function `readHash`: the first 32 bytes of the double SHA-256 of the buffer,
reversed, as hex. -/
def readHash (lib : Lib) (buffer : List Nat) : String :=
  toHex ((lib.sha256 (lib.sha256 buffer)).take 32).reverse

/-- The object `TxDecoder` returns. -/
structure Decoded where
  tx : LibTx
  network : Network
  format : TxFormat
  inputs : List Vin
  outputs : List Vout
  deriving DecidableEq

/-- The placeholder input of a transaction without inputs. -/
def coinbaseInput : Vin :=
  { txid := "0000000000000000000000000000000000000000000000000000000000000000",
    n := none, script := none, sequence := none }

/-- The object literal of lines 148-154 and 186-192: `format`, then `inputs`, then
`outputs`. -/
def buildDecoded (lib : Lib) (tx : LibTx) (txid : String) (network : Network) :
    Except Fault Decoded :=
  match (if tx.ins.length = 0 then .ok [coinbaseInput] else decodeInput lib tx) with
  | .error f => .error f
  | .ok inputs =>
    match decodeOutput lib tx network with
    | .error f => .error f
    | .ok outputs =>
      .ok { tx := tx, network := network, format := decodeFormat txid tx,
            inputs := inputs, outputs := outputs }

/-- The `try` block of `TxDecoder`, lines 116-154; `none` when anything in it throws. -/
def primaryDecode (lib : Lib) (rawtx : RawTx) (network : Network) : Option Decoded :=
  match lib.fromHex rawtx network with
  | none => none
  | some tx =>
    if network.isZcash ∧ (tx.joinsplits ∨ (tx.vShieldedSpend ∨ tx.vShieldedOutput)) then
      match lib.bufferFrom rawtx with
      | none => none
      | some buffer =>
        match buildDecoded lib tx (readHash lib buffer) network with
        | .ok d => some d
        | .error _ => none
    else
      match buildDecoded lib tx tx.id network with
      | .ok d => some d
      | .error _ => none

/-- The `catch` block of `TxDecoder`, lines 155-196. The value `false` is `none`. -/
def fallbackDecode (lib : Lib) (rawtx : RawTx) (network : Network) :
    Except Fault (Option Decoded) :=
  if network.isZcash then
    match lib.bufferFrom rawtx with
    | none => .error .typeError
    | some buffer =>
      match lib.decodeTx buffer with
      | none => .error .libraryError
      | some tx =>
        match buildDecoded lib tx (readHash lib buffer) network with
        | .error f => .error f
        | .ok d => .ok (some d)
  else .ok none

/-- The function `TxDecoder`. The value `false` is `none`. -/
def TxDecoder (lib : Lib) (rawtx : RawTx) (network : Network) :
    Except Fault (Option Decoded) :=
  match primaryDecode lib rawtx network with
  | some d => .ok (some d)
  | none => fallbackDecode lib rawtx network

/-! ## formatTx -/

/-- The object `formatTx` receives. `rawIns` is `none` when the field is falsy or not an
array, `rawOut` is `none` when the field is absent. -/
structure TransactionObj where
  rawIns : Option (List RawTx)
  rawOut : Option String
  height : Int
  timestamp : Int
  deriving DecidableEq

/-- The truthiness of `txIn.code`: a number other than zero. -/
def RawTx.hasCode : RawTx → Bool
  | .hex _ => false
  | .object (some c) _ => decide (c ≠ 0)
  | .object none _ => false

/-- The test `item.status && item.status === 'not found'`. -/
def RawTx.notFound : RawTx → Bool
  | .hex _ => false
  | .object _ (some st) => decide (st = "not found")
  | .object _ none => false

/-- The loop of lines 393-395: every entry of `rawIns` goes through `TxDecoder`. -/
def decodeParents (lib : Lib) (network : Network) :
    List RawTx → Except Fault (List (Option Decoded))
  | [] => .ok []
  | rawIn :: rest =>
    match TxDecoder lib rawIn network with
    | .error f => .error f
    | .ok d =>
      match decodeParents lib network rest with
      | .error f => .error f
      | .ok ds => .ok (d :: ds)

/-- Lines 390-396: the parents are decoded only when no entry has status `'not found'`. -/
def decodeIns (lib : Lib) (rawIns : List RawTx) (network : Network) :
    Except Fault (List (Option Decoded)) :=
  if rawIns.all (fun item => !item.notFound) then decodeParents lib network rawIns
  else .ok []

/-- The body of the loop of lines 401-408 for input `i`: the parent's output at index
`inputs[i].n`, which is `undefined` out of range, or `false` without a decoded parent. -/
def resolveInput (txInsDecoded : List (Option Decoded)) (i : Nat) (input : Vin) : TxEntry :=
  match txInsDecoded.get? i with
  | some (some parent) =>
    match input.n with
    | some n =>
      match parent.outputs.get? n with
      | some o => .vout o
      | none => .undefined
    | none => .undefined
  | _ => .unresolved

/-- The loop of lines 401-408. -/
def resolveInputs (txInsDecoded : List (Option Decoded)) (inputs : List Vin) : List TxEntry :=
  inputs.enum.map (fun p => resolveInput txInsDecoded p.1 p.2)

/-- The fields assigned on lines 423-428. -/
def stampOf (transactionObj : TransactionObj) (txOutDecoded : Decoded) : Stamp :=
  { height := transactionObj.height, blocktime := transactionObj.timestamp,
    hex := transactionObj.rawOut, inputs := txOutDecoded.inputs,
    outputs := txOutDecoded.outputs, locktime := txOutDecoded.format.locktime }

/-- Lines 422-429: a result with a truthy `type` gets the metadata; an array has no `type`. -/
def stampResult (transactionObj : TransactionObj) (txOutDecoded : Decoded) :
    ParseResult → ParseResult
  | .single r =>
    if r.type ≠ "" then .single { r with stamp := some (stampOf transactionObj txOutDecoded) }
    else .single r
  | .array rs => .array rs

/-- The function `formatTx`; `now` is `Math.floor(Date.now() / 1000)` at the call. The value
`false` is `none`. -/
def formatTx (lib : Lib) (now : Int) (transactionObj : TransactionObj) (targetAddress : String)
    (network : Network) (currentHeight : Int) : Except Fault (Option ParseResult) :=
  match transactionObj.rawIns with
  | none => .ok none
  | some rawIns =>
    if !rawIns.all (fun txIn => !txIn.hasCode) then .ok none
    else
      let decodedOut : Except Fault (Option Decoded) :=
        match transactionObj.rawOut with
        | some raw => if raw ≠ "" then TxDecoder lib (.hex raw) network else .ok none
        | none => .ok none
      match decodedOut with
      | .error f => .error f
      | .ok txOutDecoded =>
        match decodeIns lib rawIns network with
        | .error f => .error f
        | .ok txInsDecoded =>
          match txOutDecoded with
          | none => .ok none
          | some out =>
            let _parsedTx : ParsedTx :=
              { format := .decoded out.format,
                inputs := resolveInputs txInsDecoded out.inputs,
                outputs := out.outputs.map TxEntry.vout,
                height := transactionObj.height,
                timestamp := if transactionObj.height = 0 then now else transactionObj.timestamp,
                confirmations :=
                  if transactionObj.height = 0 then 0 else currentHeight - transactionObj.height }
            match parseTransactionAddresses _parsedTx targetAddress network.coin false with
            | .error f => .error f
            | .ok formattedTx => .ok (some (stampResult transactionObj out formattedTx))

/-! ## The quantities of the classification algorithm, in the words of the specification -/

/-- The value of an entry, `0` for an entry that carries none. -/
def entryValue : TxEntry → ℚ
  | .vout o => o.value
  | _ => 0

/-- Specification, `attributed[side]`: the sum of the values on the side whose address is
the target address, as the exact sum of the decimals. -/
def attributed (targetAddress : String) (side : List TxEntry) : ℚ :=
  ((side.filter (fun e => entryAddress e = some targetAddress)).map entryValue).sum

/-- The accumulator `_sum[key]` after the loop, `attributed[side]` as the code computes it:
the values of the entries addressed to the target, added in doubles from left to right. -/
def attributedSum (targetAddress : String) (side : List TxEntry) : JSNumber :=
  ((side.filter (fun e => entryAddress e = some targetAddress)).map entryNumber).foldl
    JSNumber.add (.num 0)

/-- The accumulator `_total[key]` after the loop: every entry adds `Number(value)`, which
is `NaN` for an entry without a value. -/
def sideTotal (side : List TxEntry) : JSNumber :=
  ((parseSide side).map entryNumber).foldl JSNumber.add (.num 0)

/-- The addresses seen on a side in order, without the target address when
`skipTargetAddress` is set. -/
def listedAddresses (targetAddress : String) (skipTargetAddress : Bool)
    (side : List TxEntry) : List String :=
  (side.filterMap entryAddress).filter
    (fun a => !(decide (a = targetAddress) && skipTargetAddress))

/-- Specification, `distinctAddresses[side]`: the de-duplicated addresses of the side. -/
def distinctAddresses (targetAddress : String) (skipTargetAddress : Bool)
    (side : List TxEntry) : List String :=
  setToArray (listedAddresses targetAddress skipTargetAddress side)

/-- Specification, `isSelf[side]`: the distinct addresses of the side are exactly the
target address. -/
def isSelf (targetAddress : String) (skipTargetAddress : Bool) (side : List TxEntry) : Prop :=
  distinctAddresses targetAddress skipTargetAddress side = [targetAddress]

instance (targetAddress : String) (skipTargetAddress : Bool) (side : List TxEntry) :
    Decidable (isSelf targetAddress skipTargetAddress side) := by
  unfold isSelf; infer_instance

/-- The input side of a resolved transaction as the classifier reads it. -/
def ResolvedTransaction.ins (rt : ResolvedTransaction) : List TxEntry :=
  rt.inputs.map resolvedEntry

/-- The output side of a resolved transaction as the classifier reads it. -/
def ResolvedTransaction.outs (rt : ResolvedTransaction) : List TxEntry :=
  rt.outputs.map TxEntry.vout

/-- Specification of `skipTargetAddress` for the address list `l` of a side: when the flag
is set the target is not in `l` while every other address of the side is; when it is not
set, the target is in `l` as soon as an entry of the side is addressed to it. -/
def RespectsSkip (targetAddress : String) (skipTargetAddress : Bool) (side : List TxEntry)
    (l : List String) : Prop :=
  (skipTargetAddress = true →
    targetAddress ∉ l ∧
    ∀ a, a ≠ targetAddress → (∃ e ∈ side, entryAddress e = some a) → a ∈ l) ∧
  (skipTargetAddress = false →
    (∃ e ∈ side, entryAddress e = some targetAddress) → targetAddress ∈ l)

/-- Specification of a distinct address list `l` of a side: no duplicates, exactly the
addresses of the entries of the side, in the order of their first occurrence. -/
def IsDistinctListOf (side : List TxEntry) (l : List String) : Prop :=
  l.Nodup ∧
  (∀ a, a ∈ l ↔ ∃ e ∈ side, entryAddress e = some a) ∧
  l.Pairwise (fun a b =>
    (side.filterMap entryAddress).indexOf a < (side.filterMap entryAddress).indexOf b)

/-- Equality of two outcomes is decidable when equality of faults and of values is. -/
instance exceptDecEq {ε α : Type} [DecidableEq ε] [DecidableEq α] : DecidableEq (Except ε α)
  | .ok a, .ok b =>
    if h : a = b then isTrue (congrArg Except.ok h)
    else isFalse (fun h2 => h (Except.ok.inj h2))
  | .error a, .error b =>
    if h : a = b then isTrue (congrArg Except.error h)
    else isFalse (fun h2 => h (Except.error.inj h2))
  | .ok _, .error _ => isFalse (fun h => Except.noConfusion h)
  | .error _, .ok _ => isFalse (fun h => Except.noConfusion h)

/-! ## Sample transactions -/

/-- A decoded output to the single address `address` whose `value` is the decimal
`satoshi / 10^8`, with the fields `decodeOutput` gives a pay-to-public-key-hash output. -/
def payTo (address : String) (satoshi : Nat) (n : Nat) : Vout :=
  { satoshi := satoshi, value := (satoshi : ℚ) / 100000000, n := n,
    scriptPubKey := { asm := "", hex := "", type := "pubkeyhash", addresses := [address] } }

/-- One input of 5.0 from `A`; outputs 3.0 to `B` and 1.99999 back to `A`. -/
def changeTx : ResolvedTransaction :=
  { format := { txid := "c0", version := 1, locktime := 0 },
    inputs := [some (payTo "A" 500000000 0)],
    outputs := [payTo "B" 300000000 0, payTo "A" 199999000 1],
    height := 10, timestamp := 1000, confirmations := 2 }

/-- One input of 1.0 from `A`, one output of 1.5 to `A`: the outputs exceed the inputs, as
when interest is claimed. -/
def claimTx : ResolvedTransaction :=
  { format := { txid := "c2", version := 1, locktime := 0 },
    inputs := [some (payTo "A" 100000000 0)],
    outputs := [payTo "A" 150000000 0],
    height := 10, timestamp := 1000, confirmations := 2 }

/-- One input of 1.0 from `A`, outputs 0.5 to `B` and 0.6 to `A`: a payment with change
whose outputs exceed the inputs. -/
def claimPairTx : ResolvedTransaction :=
  { format := { txid := "c6", version := 1, locktime := 0 },
    inputs := [some (payTo "A" 100000000 0)],
    outputs := [payTo "B" 50000000 0, payTo "A" 60000000 1],
    height := 10, timestamp := 1000, confirmations := 2 }

/-- One input of 5.0 from `B`, one output of 4.9 to `C`: nothing for `A`. -/
def foreignTx : ResolvedTransaction :=
  { format := { txid := "c5", version := 1, locktime := 0 },
    inputs := [some (payTo "B" 500000000 0)],
    outputs := [payTo "C" 490000000 0],
    height := 10, timestamp := 1000, confirmations := 2 }

/-- One input of 47707753.09291688 from `A`; outputs 41972609.89733796 to `B` and
5735143.19541790 back to `A`. The decimals differ by 0.00016102; the doubles the code adds
and subtracts differ by 0.00016103 to 8 decimals. -/
def roundingTx : ResolvedTransaction :=
  { format := { txid := "d0", version := 1, locktime := 0 },
    inputs := [some (payTo "A" 4770775309291688 0)],
    outputs := [payTo "B" 4197260989733796 0, payTo "A" 573514319541790 1],
    height := 10, timestamp := 1000, confirmations := 2 }

/-- One input of 57740891.74140111 from `A`, one output of 57740891.74088117 to `A`. The
decimals differ by 0.00051994; the doubles differ by 0.00051995 to 8 decimals. -/
def roundingSelfTx : ResolvedTransaction :=
  { format := { txid := "d1", version := 1, locktime := 0 },
    inputs := [some (payTo "A" 5774089174140111 0)],
    outputs := [payTo "A" 5774089174088117 0],
    height := 10, timestamp := 1000, confirmations := 2 }

/-- One input of 33800547.47282992 from `A`, one output of 33800547.47270752 to `B`. The
decimals differ by 0.00012240; the doubles differ by 0.00012241 to 8 decimals. -/
def roundingSentTx : ResolvedTransaction :=
  { format := { txid := "d2", version := 1, locktime := 0 },
    inputs := [some (payTo "A" 3380054747282992 0)],
    outputs := [payTo "B" 3380054747270752 0],
    height := 10, timestamp := 1000, confirmations := 2 }

/-- One unresolved input; outputs 18736234.35695834 and 18058642.15723872 to `A`. The
decimals add up to 36794876.51419706; the doubles add up to 36794876.51419707 to 8
decimals. -/
def roundingReceivedTx : ResolvedTransaction :=
  { format := { txid := "d3", version := 1, locktime := 0 },
    inputs := [none],
    outputs := [payTo "A" 1873623435695834 0, payTo "A" 1805864215723872 1],
    height := 10, timestamp := 1000, confirmations := 2 }

/-- One input of 0.3 from `A`, outputs 0.1 and 0.2 to `A`. The decimals balance; the double
sum of the outputs exceeds the double 0.3, so the difference of the totals is negative. -/
def dustClaimTx : ResolvedTransaction :=
  { format := { txid := "d4", version := 1, locktime := 0 },
    inputs := [some (payTo "A" 30000000 0)],
    outputs := [payTo "A" 10000000 0, payTo "A" 20000000 1],
    height := 10, timestamp := 1000, confirmations := 2 }

/-- A parsed transaction with one input and one output of 2.0. -/
def sampleLibTx : LibTx :=
  { version := 1, locktime := 0,
    ins := [{ hash := .buffer (List.replicate 32 171), index := 0, script := [],
              sequence := 4294967295 }],
    outs := [{ value := 200000000, script := [118, 169] }],
    joinsplits := false, vShieldedSpend := false, vShieldedOutput := false, id := "c4" }

/-- A library that parses the raw transaction `"0100"` to `sampleLibTx`, whose output is a
pay-to-public-key-hash output to the address `A`, and fails on everything else. -/
def sampleLib : Lib :=
  { fromHex := fun rawtx _ => if rawtx = .hex "0100" then some sampleLibTx else none,
    decodeTx := fun _ => none,
    bufferFrom := fun rawtx =>
      match rawtx with
      | .hex _ => some []
      | .object _ _ => none,
    sha256 := fun data => data,
    toASM := fun _ => "OP_DUP OP_HASH160",
    classifyOutput := fun _ => "pubkeyhash",
    fromOutputScript := fun _ _ => some "A",
    pubKeyAddress := fun _ _ => none }

/-- A network that is not shielded-capable. -/
def sampleNetwork : Network := { isZcash := false, coin := "vrsc" }

/-- A bundle whose only parent entry is a lookup-failure marker of status `'not found'`,
without an error code. -/
def notFoundBundle : TransactionObj :=
  { rawIns := some [.object none (some "not found")], rawOut := some "0100",
    height := 10, timestamp := 1000 }

/-- A bundle whose only parent entry carries the error code -5. -/
def errorCodeBundle : TransactionObj :=
  { rawIns := some [.object (some (-5)) none], rawOut := some "0100",
    height := 10, timestamp := 1000 }

/-- A parsed transaction with one output of 5.0, locked by the script `[1]`. -/
def parentLibTx : LibTx :=
  { version := 1, locktime := 0,
    ins := [{ hash := .buffer (List.replicate 32 17), index := 0, script := [],
              sequence := 4294967295 }],
    outs := [{ value := 500000000, script := [1] }],
    joinsplits := false, vShieldedSpend := false, vShieldedOutput := false, id := "p1" }

/-- A parsed transaction spending output 0 of its parent: 3.0 to the script `[2]` and
1.99999 to the script `[1]`. -/
def changeLibTx : LibTx :=
  { version := 1, locktime := 7,
    ins := [{ hash := .buffer (List.replicate 32 34), index := 0, script := [],
              sequence := 4294967295 }],
    outs := [{ value := 300000000, script := [2] }, { value := 199999000, script := [1] }],
    joinsplits := false, vShieldedSpend := false, vShieldedOutput := false, id := "c7" }

/-- A parsed transaction whose input names output 1 of its parent. -/
def strayLibTx : LibTx :=
  { version := 1, locktime := 0,
    ins := [{ hash := .buffer (List.replicate 32 34), index := 1, script := [],
              sequence := 4294967295 }],
    outs := [{ value := 490000000, script := [2] }],
    joinsplits := false, vShieldedSpend := false, vShieldedOutput := false, id := "c8" }

/-- A parsed transaction without inputs. -/
def coinbaseLibTx : LibTx :=
  { version := 1, locktime := 0, ins := [],
    outs := [{ value := 1200000000, script := [1] }],
    joinsplits := false, vShieldedSpend := false, vShieldedOutput := false, id := "c9" }

/-- A library that parses four raw transactions and fails on everything else; the script
`[1]` pays the address `A`, every other script the address `B`. -/
def chainLib : Lib :=
  { fromHex := fun rawtx _ =>
      if rawtx = .hex "0100" then some parentLibTx
      else if rawtx = .hex "0200" then some changeLibTx
      else if rawtx = .hex "0300" then some strayLibTx
      else if rawtx = .hex "0400" then some coinbaseLibTx
      else none,
    decodeTx := fun _ => none,
    bufferFrom := fun rawtx =>
      match rawtx with
      | .hex _ => some []
      | .object _ _ => none,
    sha256 := fun data => data,
    toASM := fun _ => "OP_DUP OP_HASH160",
    classifyOutput := fun _ => "pubkeyhash",
    fromOutputScript := fun script _ => if script = [1] then some "A" else some "B",
    pubKeyAddress := fun _ _ => none }

/-- A bundle of the transaction `"0200"` with its parent `"0100"`. -/
def changeBundle : TransactionObj :=
  { rawIns := some [.hex "0100"], rawOut := some "0200", height := 10, timestamp := 1000 }

/-- A bundle of the transaction `"0300"`, whose input names output 1, with a parent that has
the single output 0. -/
def strayBundle : TransactionObj :=
  { rawIns := some [.hex "0100"], rawOut := some "0300", height := 10, timestamp := 1000 }

/-- A shielded-capable network. -/
def zcashNetwork : Network := { isZcash := true, coin := "zec" }

/-- A parsed transaction that carries join-splits. -/
def shieldedLibTx : LibTx :=
  { version := 2, locktime := 0,
    ins := [{ hash := .buffer (List.replicate 32 51), index := 0, script := [],
              sequence := 4294967295 }],
    outs := [{ value := 100000000, script := [1] }],
    joinsplits := true, vShieldedSpend := false, vShieldedOutput := false, id := "builtin" }

/-- A library for the shielded-capable network: it parses `"0500"` to `shieldedLibTx`, its
fallback reader fails on every buffer, and its digest is 32 bytes long. -/
def zcashLib : Lib :=
  { fromHex := fun rawtx _ => if rawtx = .hex "0500" then some shieldedLibTx else none,
    decodeTx := fun _ => none,
    bufferFrom := fun rawtx =>
      match rawtx with
      | .hex _ => some [5, 0]
      | .object _ _ => none,
    sha256 := fun data => List.replicate 32 (data.length % 256),
    toASM := fun _ => "OP_DUP OP_HASH160",
    classifyOutput := fun _ => "pubkeyhash",
    fromOutputScript := fun _ _ => some "A",
    pubKeyAddress := fun _ _ => none }

/-- A bundle of the unconfirmed transaction `"0100"`, height 0, without parents. -/
def mempoolBundle : TransactionObj :=
  { rawIns := some [], rawOut := some "0100", height := 0, timestamp := 0 }

/-! ## Lemmas on the numbers -/

theorem log2Fuel_spec (fuel n : ℕ) (h1 : 1 ≤ n) (h2 : n ≤ fuel) :
    2 ^ log2Fuel fuel n ≤ n ∧ n < 2 ^ (log2Fuel fuel n + 1) := by
  induction fuel generalizing n with
  | zero => omega
  | succ fuel ih =>
    by_cases hn : n < 2
    · have : n = 1 := by omega
      subst this
      simp [log2Fuel]
    · have h3 : 1 ≤ n / 2 := by omega
      have h4 : n / 2 ≤ fuel := by omega
      obtain ⟨ha, hb⟩ := ih (n / 2) h3 h4
      simp only [log2Fuel, hn, if_false]
      constructor
      · rw [pow_succ]
        omega
      · rw [pow_succ]
        omega

theorem floorLog2_spec (n : ℕ) (h : 1 ≤ n) :
    2 ^ floorLog2 n ≤ n ∧ n < 2 ^ (floorLog2 n + 1) :=
  log2Fuel_spec n n h (le_refl n)

theorem binaryExponent_le (n d : ℕ) :
    binaryExponent n d ≤ (floorLog2 n : ℤ) - (floorLog2 d : ℤ) - 52 := by
  unfold binaryExponent
  simp only
  split_ifs <;> omega

theorem roundHalfEven_pos (num den : ℕ) (hd : 0 < den) (h : den ≤ num) :
    1 ≤ roundHalfEven num den := by
  have hfl : 1 ≤ num / den := (Nat.one_le_div_iff hd).2 h
  unfold roundHalfEven
  simp only
  split_ifs <;> omega

/-- The scaled numerator is at least the scaled denominator: the significand is at least 1. -/
theorem scaled_le (n d : ℕ) (hn : 1 ≤ n) (hd : 1 ≤ d) (e : ℤ)
    (he : e ≤ (floorLog2 n : ℤ) - (floorLog2 d : ℤ) - 52) :
    d * 2 ^ e.toNat ≤ n * 2 ^ (-e).toNat := by
  obtain ⟨hn1, -⟩ := floorLog2_spec n hn
  obtain ⟨-, hd2⟩ := floorLog2_spec d hd
  have h1 : d * 2 ^ e.toNat ≤ 2 ^ (floorLog2 d + 1) * 2 ^ e.toNat :=
    Nat.mul_le_mul_right _ (le_of_lt hd2)
  have h2 : 2 ^ floorLog2 n * 2 ^ (-e).toNat ≤ n * 2 ^ (-e).toNat :=
    Nat.mul_le_mul_right _ hn1
  have h3 : 2 ^ (floorLog2 d + 1) * 2 ^ e.toNat ≤ 2 ^ floorLog2 n * 2 ^ (-e).toNat := by
    rw [← pow_add, ← pow_add]
    apply Nat.pow_le_pow_right (by norm_num)
    omega
  exact le_trans h1 (le_trans h3 h2)

theorem round53Pos_pos (n d : ℕ) (hn : 1 ≤ n) (hd : 1 ≤ d) : 0 < round53Pos n d := by
  unfold round53Pos
  simp only
  have hle := scaled_le n d hn hd (binaryExponent n d) (binaryExponent_le n d)
  have hden : 0 < d * 2 ^ (binaryExponent n d).toNat := by positivity
  have hm := roundHalfEven_pos _ _ hden hle
  apply div_pos
  · have : 0 < roundHalfEven (n * 2 ^ (-binaryExponent n d).toNat)
        (d * 2 ^ (binaryExponent n d).toNat) * 2 ^ (binaryExponent n d).toNat := by
      positivity
    exact_mod_cast this
  · have : 0 < 2 ^ (-binaryExponent n d).toNat := by positivity
    exact_mod_cast this

@[simp]
theorem round53_zero : round53 0 = 0 := by
  simp [round53]

theorem round53_pos (q : ℚ) (h : 0 < q) : 0 < round53 q := by
  have hq : q ≠ 0 := ne_of_gt h
  have hn : 1 ≤ q.num.natAbs := Nat.one_le_iff_ne_zero.2 (by simpa using hq)
  simp only [round53, hq, h, if_false, if_true]
  exact round53Pos_pos _ _ hn q.den_pos

theorem round53_neg (q : ℚ) (h : q < 0) : round53 q < 0 := by
  have hq : q ≠ 0 := ne_of_lt h
  have hn : 1 ≤ q.num.natAbs := Nat.one_le_iff_ne_zero.2 (by simpa using hq)
  simp only [round53, hq, not_lt.2 (le_of_lt h), if_false]
  exact neg_neg_of_pos (round53Pos_pos _ _ hn q.den_pos)

theorem round53_pos_iff (q : ℚ) : 0 < round53 q ↔ 0 < q := by
  rcases lt_trichotomy q 0 with h | h | h
  · exact ⟨fun h1 => absurd (round53_neg q h) (not_lt.2 (le_of_lt h1)), fun h1 => absurd h (not_lt.2 (le_of_lt h1))⟩
  · subst h
    simp
  · exact ⟨fun _ => h, fun _ => round53_pos q h⟩

theorem round53_neg_iff (q : ℚ) : round53 q < 0 ↔ q < 0 := by
  rcases lt_trichotomy q 0 with h | h | h
  · exact ⟨fun _ => h, fun _ => round53_neg q h⟩
  · subst h
    simp
  · exact ⟨fun h1 => absurd (round53_pos q h) (not_lt.2 (le_of_lt h1)), fun h1 => absurd h (not_lt.2 (le_of_lt h1))⟩

theorem round53_eq_zero_iff (q : ℚ) : round53 q = 0 ↔ q = 0 := by
  rcases lt_trichotomy q 0 with h | h | h
  · exact ⟨fun h1 => absurd h1 (ne_of_lt (round53_neg q h)), fun h1 => absurd h1 (ne_of_lt h)⟩
  · subst h
    simp
  · exact ⟨fun h1 => absurd h1 (ne_of_gt (round53_pos q h)), fun h1 => absurd h1 (ne_of_gt h)⟩

theorem round53_nonneg (q : ℚ) (h : 0 ≤ q) : 0 ≤ round53 q := by
  rcases eq_or_lt_of_le h with h1 | h1
  · subst h1
    simp
  · exact le_of_lt (round53_pos q h1)

theorem roundHalfEven_bounds (num den : ℕ) :
    num / den ≤ roundHalfEven num den ∧ roundHalfEven num den ≤ num / den + 1 := by
  unfold roundHalfEven
  simp only
  split_ifs <;> omega

theorem roundHalfEven_nearest (num den : ℕ) (hd : 0 < den) :
    2 * num ≤ 2 * (roundHalfEven num den * den) + den ∧
    2 * (roundHalfEven num den * den) ≤ 2 * num + den := by
  have h := Nat.div_add_mod num den
  have hr := Nat.mod_lt num hd
  have e1 : num / den * den = den * (num / den) := Nat.mul_comm _ _
  have e2 : (num / den + 1) * den = den * (num / den) + den := by
    rw [Nat.add_mul, e1, Nat.one_mul]
  unfold roundHalfEven
  simp only
  split_ifs <;> simp only [e1, e2] <;> omega

theorem roundHalfEven_tie (num den : ℕ) (h : 2 * (num % den) = den) :
    roundHalfEven num den % 2 = 0 := by
  unfold roundHalfEven
  simp only
  split_ifs <;> omega

theorem two_zpow_split (z : ℤ) :
    (2 : ℚ) ^ z = (2 : ℚ) ^ z.toNat / (2 : ℚ) ^ (-z).toNat := by
  rcases le_total 0 z with h | h
  · have h1 : (-z).toNat = 0 := Int.toNat_of_nonpos (by omega)
    have h2 : (z.toNat : ℤ) = z := Int.toNat_of_nonneg h
    rw [h1, pow_zero, div_one, ← zpow_natCast, h2]
  · have h1 : z.toNat = 0 := Int.toNat_of_nonpos h
    have h2 : ((-z).toNat : ℤ) = -z := Int.toNat_of_nonneg (by omega)
    rw [h1, pow_zero, one_div, ← zpow_natCast, h2, zpow_neg, inv_inv]

theorem scaled_iff (n d : ℕ) (z : ℤ) :
    d * 2 ^ z.toNat ≤ n * 2 ^ (-z).toNat ↔ (d : ℚ) * 2 ^ z ≤ n := by
  have hp : (0 : ℚ) < (2 : ℚ) ^ (-z).toNat := by positivity
  rw [two_zpow_split, ← mul_div_assoc, div_le_iff₀ hp]
  constructor
  · intro h
    exact_mod_cast h
  · intro h
    exact_mod_cast h
theorem floorLog2_cast (n : ℕ) (h : 1 ≤ n) :
    (2 : ℚ) ^ (floorLog2 n : ℤ) ≤ n ∧ (n : ℚ) < (2 : ℚ) ^ ((floorLog2 n : ℤ) + 1) := by
  obtain ⟨h1, h2⟩ := floorLog2_spec n h
  constructor
  · rw [zpow_natCast]
    exact_mod_cast h1
  · have e : ((floorLog2 n : ℤ) + 1) = ((floorLog2 n + 1 : ℕ) : ℤ) := by push_cast; rfl
    rw [e, zpow_natCast]
    exact_mod_cast h2

theorem binaryExponent_spec (n d : ℕ) (hn : 1 ≤ n) (hd : 1 ≤ d) :
    (2 : ℚ) ^ (binaryExponent n d + 52) * d ≤ n ∧
    (n : ℚ) < (2 : ℚ) ^ (binaryExponent n d + 53) * d := by
  obtain ⟨a1, a2⟩ := floorLog2_cast n hn
  obtain ⟨b1, b2⟩ := floorLog2_cast d hd
  have h20 : (2 : ℚ) ≠ 0 := by norm_num
  unfold binaryExponent
  simp only
  split_ifs with hc
  · have hc1 := (scaled_iff n d _).1 hc
    constructor
    · rw [sub_add_cancel, mul_comm]
      exact hc1
    · have e : (floorLog2 n : ℤ) - floorLog2 d - 52 + 53
          = ((floorLog2 n : ℤ) + 1) + (-(floorLog2 d : ℤ)) := by ring
      have h2 : (2 : ℚ) ^ (((floorLog2 n : ℤ) + 1) + (-(floorLog2 d : ℤ))) * (2 : ℚ) ^ (floorLog2 d : ℤ)
          = (2 : ℚ) ^ ((floorLog2 n : ℤ) + 1) := by
        rw [← zpow_add₀ h20]
        congr 1
        ring
      have h3 : (2 : ℚ) ^ (((floorLog2 n : ℤ) + 1) + (-(floorLog2 d : ℤ))) * (2 : ℚ) ^ (floorLog2 d : ℤ)
          ≤ (2 : ℚ) ^ (((floorLog2 n : ℤ) + 1) + (-(floorLog2 d : ℤ))) * d :=
        mul_le_mul_of_nonneg_left b1 (by positivity)
      rw [e]
      linarith
  · have hc1 : (n : ℚ) < (d : ℚ) * 2 ^ ((floorLog2 n : ℤ) - floorLog2 d) :=
      lt_of_not_le (fun h => hc ((scaled_iff n d _).2 h))
    constructor
    · have e : (floorLog2 n : ℤ) - floorLog2 d - 1 - 52 + 52
          = (floorLog2 n : ℤ) + (-((floorLog2 d : ℤ) + 1)) := by ring
      have h2 : (2 : ℚ) ^ ((floorLog2 n : ℤ) + (-((floorLog2 d : ℤ) + 1)))
            * (2 : ℚ) ^ ((floorLog2 d : ℤ) + 1)
          = (2 : ℚ) ^ (floorLog2 n : ℤ) := by
        rw [← zpow_add₀ h20]
        congr 1
        ring
      have h3 : (2 : ℚ) ^ ((floorLog2 n : ℤ) + (-((floorLog2 d : ℤ) + 1))) * d
          ≤ (2 : ℚ) ^ ((floorLog2 n : ℤ) + (-((floorLog2 d : ℤ) + 1)))
            * (2 : ℚ) ^ ((floorLog2 d : ℤ) + 1) :=
        mul_le_mul_of_nonneg_left (le_of_lt b2) (by positivity)
      rw [e]
      linarith
    · have e : (floorLog2 n : ℤ) - floorLog2 d - 1 - 52 + 53
          = (floorLog2 n : ℤ) - floorLog2 d := by ring
      rw [e, mul_comm]
      exact hc1

theorem round53Pos_eq (n d : ℕ) :
    round53Pos n d
      = (roundHalfEven (n * 2 ^ (-binaryExponent n d).toNat)
          (d * 2 ^ (binaryExponent n d).toNat) : ℚ) * (2 : ℚ) ^ binaryExponent n d := by
  unfold round53Pos
  simp only
  rw [two_zpow_split]
  push_cast
  ring

/-- The value `round53Pos n d` is a double nearest to `n / d`: a significand `m` of at most
53 bits times `2 ^ e`, where `2 ^ 52 ≤ (n / d) / 2 ^ e < 2 ^ 53`, at most half a unit in
the last place away from `n / d`. -/
theorem round53Pos_nearest (n d : ℕ) (hn : 1 ≤ n) (hd : 1 ≤ d) :
    ∃ m : ℕ, round53Pos n d = m * (2 : ℚ) ^ binaryExponent n d ∧
      2 ^ 52 ≤ m ∧ m ≤ 2 ^ 53 ∧
      (2 : ℚ) ^ 52 * 2 ^ binaryExponent n d ≤ (n : ℚ) / d ∧
      (n : ℚ) / d < (2 : ℚ) ^ 53 * 2 ^ binaryExponent n d ∧
      |round53Pos n d - (n : ℚ) / d| ≤ (2 : ℚ) ^ binaryExponent n d / 2 := by
  obtain ⟨s1, s2⟩ := binaryExponent_spec n d hn hd
  have h20 : (2 : ℚ) ≠ 0 := by norm_num
  have hd0 : (0 : ℚ) < d := by exact_mod_cast hd
  have hp1 : (0 : ℚ) < (2 : ℚ) ^ (binaryExponent n d).toNat := by positivity
  have hp2 : (0 : ℚ) < (2 : ℚ) ^ (-binaryExponent n d).toNat := by positivity
  have hpe : (0 : ℚ) < (2 : ℚ) ^ binaryExponent n d := by positivity
  have hsplit := two_zpow_split (binaryExponent n d)
  rw [zpow_add₀ h20] at s1 s2
  have hDpos : 0 < d * 2 ^ (binaryExponent n d).toNat := by positivity
  obtain ⟨r1, r2⟩ := roundHalfEven_nearest (n * 2 ^ (-binaryExponent n d).toNat)
    (d * 2 ^ (binaryExponent n d).toNat) hDpos
  obtain ⟨b1, b2⟩ := roundHalfEven_bounds (n * 2 ^ (-binaryExponent n d).toNat)
    (d * 2 ^ (binaryExponent n d).toNat)
  -- the scaled quotient lies in the binade
  have q1 : 2 ^ 52 * (d * 2 ^ (binaryExponent n d).toNat)
      ≤ n * 2 ^ (-binaryExponent n d).toNat := by
    have : (2 : ℚ) ^ 52 * (d * 2 ^ (binaryExponent n d).toNat)
        ≤ n * 2 ^ (-binaryExponent n d).toNat := by
      rw [hsplit] at s1
      have := mul_le_mul_of_nonneg_right s1 (le_of_lt hp2)
      have e : (2 : ℚ) ^ (binaryExponent n d).toNat / 2 ^ (-binaryExponent n d).toNat
          * 2 ^ (52 : ℤ) * d * 2 ^ (-binaryExponent n d).toNat
          = 2 ^ 52 * (d * 2 ^ (binaryExponent n d).toNat) := by
        field_simp
        ring
      rw [e] at this
      exact this
    exact_mod_cast this
  have q2 : n * 2 ^ (-binaryExponent n d).toNat
      < 2 ^ 53 * (d * 2 ^ (binaryExponent n d).toNat) := by
    have : (n : ℚ) * 2 ^ (-binaryExponent n d).toNat
        < 2 ^ 53 * (d * 2 ^ (binaryExponent n d).toNat) := by
      rw [hsplit] at s2
      have := mul_lt_mul_of_pos_right s2 hp2
      have e : (2 : ℚ) ^ (binaryExponent n d).toNat / 2 ^ (-binaryExponent n d).toNat
          * 2 ^ (53 : ℤ) * d * 2 ^ (-binaryExponent n d).toNat
          = 2 ^ 53 * (d * 2 ^ (binaryExponent n d).toNat) := by
        field_simp
        ring
      rw [e] at this
      exact this
    exact_mod_cast this
  have f1 : 2 ^ 52 ≤ n * 2 ^ (-binaryExponent n d).toNat
      / (d * 2 ^ (binaryExponent n d).toNat) :=
    (Nat.le_div_iff_mul_le hDpos).2 q1
  have f2 : n * 2 ^ (-binaryExponent n d).toNat / (d * 2 ^ (binaryExponent n d).toNat)
      < 2 ^ 53 :=
    (Nat.div_lt_iff_lt_mul hDpos).2 q2
  have hval := round53Pos_eq n d
  refine ⟨_, hval, le_trans f1 b1, by omega, ?_, ?_, ?_⟩
  · rw [le_div_iff₀ hd0]
    linarith
  · rw [div_lt_iff₀ hd0]
    linarith
  · have c1 : (2 : ℚ) * (n * 2 ^ (-binaryExponent n d).toNat)
        ≤ 2 * (roundHalfEven (n * 2 ^ (-binaryExponent n d).toNat)
          (d * 2 ^ (binaryExponent n d).toNat) * (d * 2 ^ (binaryExponent n d).toNat))
          + d * 2 ^ (binaryExponent n d).toNat := by
      exact_mod_cast r1
    have c2 : (2 : ℚ) * (roundHalfEven (n * 2 ^ (-binaryExponent n d).toNat)
          (d * 2 ^ (binaryExponent n d).toNat) * (d * 2 ^ (binaryExponent n d).toNat))
        ≤ 2 * (n * 2 ^ (-binaryExponent n d).toNat)
          + d * 2 ^ (binaryExponent n d).toNat := by
      exact_mod_cast r2
    rw [hval, hsplit]
    generalize (roundHalfEven (n * 2 ^ (-binaryExponent n d).toNat)
      (d * 2 ^ (binaryExponent n d).toNat) : ℚ) = m at c1 c2 ⊢
    generalize (2 : ℚ) ^ (binaryExponent n d).toNat = A at hp1 c1 c2 ⊢
    generalize (2 : ℚ) ^ (-binaryExponent n d).toNat = B at hp2 c1 c2 ⊢
    have hB : B ≠ 0 := ne_of_gt hp2
    have hdne : (d : ℚ) ≠ 0 := ne_of_gt hd0
    have hden : (0 : ℚ) < 2 * d * B := by positivity
    have e1 : m * (A / B) - (n : ℚ) / d - A / B / 2
        = (2 * (m * (d * A)) - 2 * (n * B) - d * A) / (2 * d * B) := by
      field_simp
      ring
    have e2 : m * (A / B) - (n : ℚ) / d + A / B / 2
        = (2 * (m * (d * A)) - 2 * (n * B) + d * A) / (2 * d * B) := by
      field_simp
      ring
    have u1 : m * (A / B) - (n : ℚ) / d - A / B / 2 ≤ 0 := by
      rw [e1]
      exact div_nonpos_of_nonpos_of_nonneg (by linarith) (le_of_lt hden)
    have u2 : 0 ≤ m * (A / B) - (n : ℚ) / d + A / B / 2 := by
      rw [e2]
      exact div_nonneg (by linarith) (le_of_lt hden)
    rw [abs_le]
    constructor <;> linarith

/-- When `n / d` lies halfway between two neighbouring doubles, `round53Pos n d` is the one
with the even significand. -/
theorem round53Pos_tie (n d : ℕ) (hd : 1 ≤ d) (j : ℕ)
    (h : (n : ℚ) / d = (j + 1 / 2) * (2 : ℚ) ^ binaryExponent n d) :
    ∃ m : ℕ, round53Pos n d = m * (2 : ℚ) ^ binaryExponent n d ∧ m % 2 = 0 := by
  have hd0 : (0 : ℚ) < d := by exact_mod_cast hd
  have hp1 : (0 : ℚ) < (2 : ℚ) ^ (binaryExponent n d).toNat := by positivity
  have hp2 : (0 : ℚ) < (2 : ℚ) ^ (-binaryExponent n d).toNat := by positivity
  have hDpos : 0 < d * 2 ^ (binaryExponent n d).toNat := by positivity
  refine ⟨_, round53Pos_eq n d, roundHalfEven_tie _ _ ?_⟩
  have k : 2 * (n * 2 ^ (-binaryExponent n d).toNat)
      = 2 * ((d * 2 ^ (binaryExponent n d).toNat) * j)
        + d * 2 ^ (binaryExponent n d).toNat := by
    have : (2 : ℚ) * (n * 2 ^ (-binaryExponent n d).toNat)
        = 2 * ((d * 2 ^ (binaryExponent n d).toNat) * j)
          + d * 2 ^ (binaryExponent n d).toNat := by
      rw [two_zpow_split, div_eq_iff (ne_of_gt hd0)] at h
      rw [h]
      field_simp
      ring
    exact_mod_cast this
  generalize n * 2 ^ (-binaryExponent n d).toNat = N at k
  generalize d * 2 ^ (binaryExponent n d).toNat = D at k hDpos
  have hdiv : N / D = j := by
    apply Nat.div_eq_of_lt_le
    · rw [Nat.mul_comm]
      omega
    · have e : (j + 1) * D = D * j + D := by ring
      rw [e]
      omega
  have hmod := Nat.div_add_mod N D
  rw [hdiv] at hmod
  omega

theorem natAbs_div_den (q : ℚ) : ((q.num.natAbs : ℕ) : ℚ) / q.den = |q| := by
  rcases le_total 0 q with h | h
  · have h1 : 0 ≤ q.num := Rat.num_nonneg.2 h
    have h2 : ((q.num.natAbs : ℕ) : ℚ) = (q.num : ℚ) := by
      rw [Nat.cast_natAbs, abs_of_nonneg h1]
    rw [h2, Rat.num_div_den, abs_of_nonneg h]
  · have h1 : q.num ≤ 0 := Rat.num_nonpos.2 h
    have h2 : ((q.num.natAbs : ℕ) : ℚ) = -(q.num : ℚ) := by
      rw [Nat.cast_natAbs, abs_of_nonpos h1, Int.cast_neg]
    rw [h2, neg_div, Rat.num_div_den, abs_of_nonpos h]

/-- The value `round53 q` is a double nearest to `q` on an unbounded exponent range: its
magnitude is a significand `m` of at most 53 bits times `2 ^ e`, where
`2 ^ 52 ≤ |q| / 2 ^ e < 2 ^ 53`, and it is at most half a unit in the last place away from
`q`. -/
theorem round53_nearest (q : ℚ) (hq : q ≠ 0) :
    ∃ (m : ℕ) (e : ℤ), |round53 q| = m * (2 : ℚ) ^ e ∧
      2 ^ 52 ≤ m ∧ m ≤ 2 ^ 53 ∧
      (2 : ℚ) ^ 52 * 2 ^ e ≤ |q| ∧ |q| < (2 : ℚ) ^ 53 * 2 ^ e ∧
      |round53 q - q| ≤ (2 : ℚ) ^ e / 2 := by
  have hn : 1 ≤ q.num.natAbs := Nat.one_le_iff_ne_zero.2 (by simpa using hq)
  obtain ⟨m, h1, h2, h3, h4, h5, h6⟩ := round53Pos_nearest _ _ hn q.den_pos
  have hpos := round53Pos_pos _ _ hn q.den_pos
  rw [natAbs_div_den] at h4 h5 h6
  refine ⟨m, binaryExponent q.num.natAbs q.den, ?_, h2, h3, h4, h5, ?_⟩
  · rcases lt_or_gt_of_ne hq with h | h
    · simp only [round53, hq, not_lt.2 (le_of_lt h), if_false, abs_neg, abs_of_pos hpos]
      exact h1
    · simp only [round53, hq, h, if_false, if_true, abs_of_pos hpos]
      exact h1
  · rcases lt_or_gt_of_ne hq with h | h
    · simp only [round53, hq, not_lt.2 (le_of_lt h), if_false]
      rw [abs_of_neg h] at h6
      have e : -round53Pos q.num.natAbs q.den - q = -(round53Pos q.num.natAbs q.den - -q) := by
        ring
      rw [e, abs_neg]
      exact h6
    · simp only [round53, hq, h, if_false, if_true]
      rw [abs_of_pos h] at h6
      exact h6

/-- The double written `0.1`. -/
theorem round53_tenth : round53 (1 / 10) = 3602879701896397 / 36028797018963968 := by
  decide!

/-- In doubles `0.1 + 0.2` is `0.30000000000000004`. -/
theorem add_tenth_fifth :
    (JSNumber.num (1 / 10)).add (.num (1 / 5))
      = .num (1351079888211149 / 4503599627370496) := by
  decide!

/-- In doubles `0.3 - (0.1 + 0.2)` is negative, and `toFixed(8)` makes `-0` of it. -/
theorem sub_dust_negZero :
    ((JSNumber.num (3 / 10)).sub ((JSNumber.num (1 / 10)).add (.num (1 / 5)))).ltZero = true ∧
    ((JSNumber.num (3 / 10)).sub ((JSNumber.num (1 / 10)).add (.num (1 / 5)))).toFixed8
      = .negZero := by
  decide!

/-- The `value` of an output of 6154753742957216 units is the decimal
61547537.42957217: the double product `1e-8 * 6154753742957216` lies above
61547537.42957216. -/
theorem formatOutput_value_rounding :
    (formatOutput sampleLib { value := 6154753742957216, script := [118, 169] } 0
      sampleNetwork).map Vout.value = .ok (6154753742957217 / 100000000) := by
  decide!

/-! ## Lemmas on the loop -/

theorem attributed_nil (targetAddress : String) : attributed targetAddress [] = 0 := by
  simp [attributed]

theorem attributed_cons (targetAddress : String) (e : TxEntry) (es : List TxEntry) :
    attributed targetAddress (e :: es)
      = (if entryAddress e = some targetAddress then entryValue e else 0)
        + attributed targetAddress es := by
  by_cases h : entryAddress e = some targetAddress <;> simp [attributed, List.filter_cons, h]

theorem listedAddresses_nil (targetAddress : String) (skipTargetAddress : Bool) :
    listedAddresses targetAddress skipTargetAddress [] = [] := by
  simp [listedAddresses]

theorem listedAddresses_cons_none (targetAddress : String) (skipTargetAddress : Bool)
    (e : TxEntry) (es : List TxEntry) (h : entryAddress e = none) :
    listedAddresses targetAddress skipTargetAddress (e :: es)
      = listedAddresses targetAddress skipTargetAddress es := by
  simp [listedAddresses, List.filterMap_cons, h]

theorem listedAddresses_cons_some (targetAddress : String) (skipTargetAddress : Bool)
    (e : TxEntry) (es : List TxEntry) (a : String) (h : entryAddress e = some a) :
    listedAddresses targetAddress skipTargetAddress (e :: es)
      = (if a = targetAddress ∧ skipTargetAddress = true then [] else [a])
        ++ listedAddresses targetAddress skipTargetAddress es := by
  by_cases h1 : a = targetAddress <;> cases skipTargetAddress <;>
    simp [listedAddresses, List.filterMap_cons, h, List.filter_cons, h1]

theorem entryNumber_of_address (e : TxEntry) (a : String) (h : entryAddress e = some a) :
    entryNumber e = .num (entryValue e) := by
  cases e <;> simp_all [entryAddress, entryNumber, entryValue]

theorem scanEntry_none (targetAddress : String) (skipTargetAddress : Bool) (acc : SideAcc)
    (e : TxEntry) (he : e ≠ TxEntry.undefined) (h : entryAddress e = none) :
    scanEntry targetAddress skipTargetAddress acc e
      = .ok { total := acc.total.add (entryNumber e), sum := acc.sum,
              addresses := acc.addresses } := by
  cases e <;> simp_all [scanEntry]

theorem scanEntry_some (targetAddress : String) (skipTargetAddress : Bool) (acc : SideAcc)
    (e : TxEntry) (a : String) (h : entryAddress e = some a) :
    scanEntry targetAddress skipTargetAddress acc e
      = .ok { total := acc.total.add (entryNumber e),
              sum := if a = targetAddress then acc.sum.add (entryNumber e) else acc.sum,
              addresses :=
                if a = targetAddress ∧ skipTargetAddress = true then acc.addresses
                else acc.addresses ++ [a] } := by
  cases e <;> simp_all [scanEntry, entryAddress]

@[simp]
theorem JSNumber.num_add_num (a b : ℚ) :
    (JSNumber.num a).add (JSNumber.num b)
      = JSNumber.num (round53 (round53 a + round53 b)) := rfl

@[simp]
theorem JSNumber.num_sub_num (a b : ℚ) :
    (JSNumber.num a).sub (JSNumber.num b)
      = JSNumber.num (round53 (round53 a - round53 b)) := rfl

@[simp]
theorem JSNumber.gtZero_num (a : ℚ) : (JSNumber.num a).gtZero = decide (0 < a) := by
  simp only [JSNumber.gtZero, round53_pos_iff]

@[simp]
theorem JSNumber.ltZero_num (a : ℚ) : (JSNumber.num a).ltZero = decide (a < 0) := by
  simp only [JSNumber.ltZero, round53_neg_iff]

@[simp]
theorem JSNumber.isZero_num (a : ℚ) : (JSNumber.num a).isZero = decide (a = 0) := by
  simp only [JSNumber.isZero, round53_eq_zero_iff]

theorem JSNumber.toFixed8_num_nonneg (a : ℚ) (h : 0 ≤ a) :
    (JSNumber.num a).toFixed8 = JSNumber.num (JSNumber.roundTo8 (round53 a)) := by
  simp [JSNumber.toFixed8, not_lt.2 (round53_nonneg a h)]

theorem JSNumber.gtZero_of_isZero (x : JSNumber) (h : x.isZero = true) : x.gtZero = false := by
  cases x with
  | num a =>
    simp only [JSNumber.isZero_num, decide_eq_true_eq] at h
    simp [h]
  | negZero => rfl
  | nan => rfl

theorem JSNumber.isZero_of_gtZero (x : JSNumber) (h : x.gtZero = true) : x.isZero = false := by
  cases hz : x.isZero with
  | false => rfl
  | true => rw [JSNumber.gtZero_of_isZero x hz] at h; cases h

theorem scanEntries_eq (targetAddress : String) (skipTargetAddress : Bool)
    (es : List TxEntry) (hes : TxEntry.undefined ∉ es) (t sm : JSNumber) (l : List String) :
    scanEntries targetAddress skipTargetAddress es { total := t, sum := sm, addresses := l }
      = .ok { total := (es.map entryNumber).foldl JSNumber.add t,
              sum := ((es.filter (fun e => entryAddress e = some targetAddress)).map
                entryNumber).foldl JSNumber.add sm,
              addresses := l ++ listedAddresses targetAddress skipTargetAddress es } := by
  induction es generalizing t sm l with
  | nil => simp [scanEntries, listedAddresses_nil]
  | cons e es ih =>
    have hes1 : TxEntry.undefined ∉ es := fun h => hes (List.mem_cons_of_mem _ h)
    have he : e ≠ TxEntry.undefined := fun h => hes (h ▸ List.mem_cons_self _ _)
    cases hadr : entryAddress e with
    | none =>
      rw [scanEntries, scanEntry_none _ _ _ _ he hadr]
      simp only [ih hes1, listedAddresses_cons_none _ _ _ _ hadr]
      simp [List.filter_cons, hadr]
    | some a =>
      rw [scanEntries, scanEntry_some _ _ _ _ _ hadr]
      by_cases h1 : a = targetAddress <;> cases skipTargetAddress <;>
        simp [ih hes1, hadr, listedAddresses_cons_some _ _ _ _ _ hadr, h1, List.filter_cons]

theorem attributedSum_parseSide (targetAddress : String) (side : List TxEntry) :
    attributedSum targetAddress (parseSide side) = attributedSum targetAddress side := by
  cases side <;> simp [parseSide, attributedSum, entryAddress]

theorem listedAddresses_parseSide (targetAddress : String) (skipTargetAddress : Bool)
    (side : List TxEntry) :
    listedAddresses targetAddress skipTargetAddress (parseSide side)
      = listedAddresses targetAddress skipTargetAddress side := by
  cases side <;> simp [parseSide, listedAddresses, entryAddress]

theorem undefined_not_mem_parseSide (side : List TxEntry) (h : TxEntry.undefined ∉ side) :
    TxEntry.undefined ∉ parseSide side := by
  cases side <;> simp_all [parseSide]

/-- The loop over one side computes the total, the attributed sum and the address list. -/
theorem scanSide_eq (targetAddress : String) (skipTargetAddress : Bool) (side : List TxEntry)
    (h : TxEntry.undefined ∉ side) :
    scanSide targetAddress skipTargetAddress side
      = .ok { total := sideTotal side, sum := attributedSum targetAddress side,
              addresses := listedAddresses targetAddress skipTargetAddress side } := by
  rw [scanSide, scanEntries_eq _ _ _ (undefined_not_mem_parseSide side h)]
  rw [← attributedSum_parseSide targetAddress side]
  simp [sideTotal, attributedSum, listedAddresses_parseSide]

theorem undefined_not_mem_ins (rt : ResolvedTransaction) : TxEntry.undefined ∉ rt.ins := by
  intro h
  obtain ⟨x, -, hx⟩ := List.mem_map.1 h
  cases x <;> simp [resolvedEntry] at hx

theorem undefined_not_mem_outs (rt : ResolvedTransaction) : TxEntry.undefined ∉ rt.outs := by
  intro h
  obtain ⟨x, -, hx⟩ := List.mem_map.1 h
  cases hx

theorem isSelfSend_iff (targetAddress : String) (l : List String) :
    isSelfSend targetAddress l = true ↔ l = [targetAddress] := by
  constructor
  · intro h
    simp only [isSelfSend, List.any_eq_true, Bool.and_eq_true, decide_eq_true_eq] at h
    obtain ⟨a, ha, rfl, hl⟩ := h
    match l, hl, ha with
    | [b], _, ha =>
      have hb := List.mem_singleton.1 ha
      simp [hb]
  · rintro rfl
    simp [isSelfSend]

theorem listedAddresses_noskip (targetAddress : String) (side : List TxEntry) :
    listedAddresses targetAddress false side = side.filterMap entryAddress := by
  simp [listedAddresses]

theorem attributedSum_of_not_mem (targetAddress : String) (side : List TxEntry)
    (h : targetAddress ∉ side.filterMap entryAddress) :
    attributedSum targetAddress side = .num 0 := by
  have hf : side.filter (fun e => entryAddress e = some targetAddress) = [] := by
    rw [List.filter_eq_nil_iff]
    intro e he hadr
    exact h (List.mem_filterMap.2 ⟨e, he, by simpa using hadr⟩)
  simp [attributedSum, hf]

theorem setToArray_foldl_const (t : String) (l acc : List String) (hl : ∀ a ∈ l, a = t)
    (hacc : t ∈ acc) :
    l.foldl (fun s a => if a ∈ s then s else s ++ [a]) acc = acc := by
  induction l with
  | nil => rfl
  | cons a l ih =>
    have ha : a = t := hl a (List.mem_cons_self _ _)
    subst ha
    simp only [List.foldl_cons, hacc, if_true]
    exact ih (fun b hb => hl b (List.mem_cons_of_mem _ hb))

theorem setToArray_only (t : String) (l : List String) (hl : ∀ a ∈ l, a = t) (hne : t ∈ l) :
    setToArray l = [t] := by
  cases l with
  | nil => simp at hne
  | cons a l =>
    have ha : a = t := hl a (List.mem_cons_self _ _)
    subst ha
    simp only [setToArray, List.foldl_cons, List.not_mem_nil, if_false, List.nil_append]
    exact setToArray_foldl_const a l [a] (fun b hb => hl b (List.mem_cons_of_mem _ hb))
      (List.mem_singleton.2 rfl)

/-- A side on which the target is attributed a positive sum and every address is the target
is self-addressed. -/
theorem isSelf_of_only (targetAddress : String) (side : List TxEntry)
    (hpos : (attributedSum targetAddress side).gtZero = true)
    (honly : ∀ e ∈ side, ∀ a, entryAddress e = some a → a = targetAddress) :
    isSelf targetAddress false side := by
  have hmem : targetAddress ∈ side.filterMap entryAddress := by
    by_contra h
    rw [attributedSum_of_not_mem targetAddress side h] at hpos
    simp at hpos
  rw [isSelf, distinctAddresses, listedAddresses_noskip]
  refine setToArray_only targetAddress _ ?_ hmem
  intro a ha
  obtain ⟨e, he, hadr⟩ := List.mem_filterMap.1 ha
  exact honly e he a hadr

theorem attributed_nonneg (targetAddress : String) (side : List TxEntry)
    (h : ∀ e ∈ side, 0 ≤ entryValue e) : 0 ≤ attributed targetAddress side := by
  induction side with
  | nil => simp [attributed_nil]
  | cons e es ih =>
    rw [attributed_cons]
    have h1 : 0 ≤ entryValue e := h e (List.mem_cons_self _ _)
    have h2 := ih (fun x hx => h x (List.mem_cons_of_mem _ hx))
    split_ifs <;> linarith

/-- The running sum of the loop over non-negative values is a non-negative number, and it
is positive exactly when its start or the exact sum of the attributed values is. -/
theorem foldl_add_sign (targetAddress : String) (side : List TxEntry) (a : ℚ) (ha : 0 ≤ a)
    (h : ∀ e ∈ side, 0 ≤ entryValue e) :
    ∃ s : ℚ,
      ((side.filter (fun e => entryAddress e = some targetAddress)).map entryNumber).foldl
        JSNumber.add (.num a) = .num s ∧
      0 ≤ s ∧ (0 < s ↔ (0 < a ∨ 0 < attributed targetAddress side)) := by
  induction side generalizing a with
  | nil => exact ⟨a, by simp, ha, by simp [attributed_nil]⟩
  | cons e es ih =>
    have hv : 0 ≤ entryValue e := h e (List.mem_cons_self _ _)
    have hes : ∀ x ∈ es, 0 ≤ entryValue x := fun x hx => h x (List.mem_cons_of_mem _ hx)
    have hattr := attributed_nonneg targetAddress es hes
    by_cases hadr : entryAddress e = some targetAddress
    · have hn := entryNumber_of_address _ _ hadr
      have ha1 : 0 ≤ round53 (round53 a + round53 (entryValue e)) :=
        round53_nonneg _ (add_nonneg (round53_nonneg a ha) (round53_nonneg _ hv))
      obtain ⟨s, hs, hs0, hiff⟩ := ih _ ha1 hes
      refine ⟨s, ?_, hs0, ?_⟩
      · simp only [List.filter_cons, hadr, decide_True, if_true, List.map_cons,
          List.foldl_cons, hn, JSNumber.num_add_num]
        exact hs
      · rw [hiff, attributed_cons, if_pos hadr, round53_pos_iff]
        have hra := round53_nonneg a ha
        have hrv := round53_nonneg _ hv
        have pa := round53_pos_iff a
        have pv := round53_pos_iff (entryValue e)
        constructor
        · rintro (h1 | h1)
          · rcases lt_or_eq_of_le hra with h2 | h2
            · exact Or.inl (pa.1 h2)
            · right
              have : 0 < round53 (entryValue e) := by linarith
              have := pv.1 this
              linarith
          · right
            linarith
        · rintro (h1 | h1)
          · left
            have := pa.2 h1
            linarith
          · rcases lt_or_eq_of_le hv with h2 | h2
            · left
              have := pv.2 h2
              linarith
            · right
              linarith
    · obtain ⟨s, hs, hs0, hiff⟩ := ih a ha hes
      refine ⟨s, ?_, hs0, ?_⟩
      · simp only [List.filter_cons, hadr, decide_False, Bool.false_eq_true, if_false]
        exact hs
      · rw [hiff, attributed_cons, if_neg hadr, zero_add]

/-- On non-negative values the sum the loop accumulates is a non-negative number that is
positive exactly when the exact sum of the attributed values is. -/
theorem attributedSum_sign (targetAddress : String) (side : List TxEntry)
    (h : ∀ e ∈ side, 0 ≤ entryValue e) :
    ∃ s : ℚ, attributedSum targetAddress side = .num s ∧ 0 ≤ s ∧
      (0 < s ↔ 0 < attributed targetAddress side) := by
  obtain ⟨s, hs, hs0, hiff⟩ := foldl_add_sign targetAddress side 0 (le_refl 0) h
  exact ⟨s, hs, hs0, by simpa using hiff⟩

theorem roundTo8_nonneg (q : ℚ) (h : 0 ≤ q) : 0 ≤ JSNumber.roundTo8 q := by
  have h1 : ¬ q < 0 := not_lt.2 h
  have h2 : (0 : ℤ) ≤ ⌊q * 100000000 + 1 / 2⌋ := Int.floor_nonneg.2 (by positivity)
  simp only [JSNumber.roundTo8, h1, if_false]
  have h3 : (0 : ℚ) ≤ ((⌊q * 100000000 + 1 / 2⌋ : ℤ) : ℚ) := by exact_mod_cast h2
  positivity

/-- On a transaction with a decoded `format` and no `undefined` entry neither loop throws:
the result is the decision table on the totals, the attributed sums and the address lists. -/
theorem parse_eq_classify (tx : ParsedTx) (targetAddress network : String)
    (skipTargetAddress : Bool) (hf : tx.format ≠ .cantParse)
    (hi : TxEntry.undefined ∉ tx.inputs) (ho : TxEntry.undefined ∉ tx.outputs) :
    parseTransactionAddresses tx targetAddress network skipTargetAddress
      = .ok (classifySides tx targetAddress network
          { total := sideTotal tx.inputs, sum := attributedSum targetAddress tx.inputs,
            addresses := listedAddresses targetAddress skipTargetAddress tx.inputs }
          { total := sideTotal tx.outputs, sum := attributedSum targetAddress tx.outputs,
            addresses := listedAddresses targetAddress skipTargetAddress tx.outputs }) := by
  simp [parseTransactionAddresses, hf, scanSide_eq _ _ _ hi, scanSide_eq _ _ _ ho]

theorem parse_resolved (rt : ResolvedTransaction) (targetAddress network : String)
    (skipTargetAddress : Bool) :
    parseTransactionAddresses rt.toParsedTx targetAddress network skipTargetAddress
      = .ok (classifySides rt.toParsedTx targetAddress network
          { total := sideTotal rt.ins, sum := attributedSum targetAddress rt.ins,
            addresses := listedAddresses targetAddress skipTargetAddress rt.ins }
          { total := sideTotal rt.outs, sum := attributedSum targetAddress rt.outs,
            addresses := listedAddresses targetAddress skipTargetAddress rt.outs }) :=
  parse_eq_classify rt.toParsedTx targetAddress network skipTargetAddress
    (by simp [ResolvedTransaction.toParsedTx])
    (undefined_not_mem_ins rt) (undefined_not_mem_outs rt)

theorem isSelf_iff (targetAddress : String) (skipTargetAddress : Bool) (side : List TxEntry) :
    isSelfSend targetAddress
        (setToArray (listedAddresses targetAddress skipTargetAddress side)) = true
      ↔ isSelf targetAddress skipTargetAddress side := by
  simp [isSelfSend_iff, isSelf, distinctAddresses]

/-- C1 (mixed case): when the sum the code attributes to the target is positive on both
sides and the two sides are not both self-addressed, the result is the array
`[sent, received]`; the sent record has amount `attributed.inputs`, fee
`total.inputs - total.outputs` (both to 8 decimals, on the sums the code computes in
doubles) and the first output-side distinct address, the received record has amount
`attributed.outputs` and the target address, and both carry the two distinct address lists
as `from` and `to`. -/
theorem C1_mixed_two_records (rt : ResolvedTransaction) (targetAddress network : String)
    (skipTargetAddress : Bool)
    (hin : (attributedSum targetAddress rt.ins).gtZero = true)
    (hout : (attributedSum targetAddress rt.outs).gtZero = true)
    (hself : ¬ (isSelf targetAddress skipTargetAddress rt.ins ∧
                isSelf targetAddress skipTargetAddress rt.outs)) :
    ∃ sent received : TxRecord,
      parseTransactionAddresses rt.toParsedTx targetAddress network skipTargetAddress
        = .ok (.array [sent, received]) ∧
      sent.type = "sent" ∧
      sent.amount = .number (attributedSum targetAddress rt.ins).toFixed8 ∧
      sent.fee = some ((sideTotal rt.ins).sub (sideTotal rt.outs)).toFixed8 ∧
      sent.address = (distinctAddresses targetAddress skipTargetAddress rt.outs).head? ∧
      received.type = "received" ∧
      received.amount = .number (attributedSum targetAddress rt.outs).toFixed8 ∧
      received.address = some targetAddress ∧
      sent.from_ = some (distinctAddresses targetAddress skipTargetAddress rt.ins) ∧
      sent.to_ = some (distinctAddresses targetAddress skipTargetAddress rt.outs) ∧
      received.from_ = sent.from_ ∧ received.to_ = sent.to_ := by
  rw [parse_resolved]
  simp only [classifySides, isSelf_iff, hin, hout, hself, and_self, if_true, if_false]
  exact ⟨_, _, rfl, rfl, rfl, rfl, rfl, rfl, rfl, rfl, rfl, rfl, rfl, rfl⟩

theorem C1_mixed_two_records_witness :
    (attributedSum "A" roundingTx.ins).gtZero = true ∧
    (attributedSum "A" roundingTx.outs).gtZero = true ∧
    ¬ (isSelf "A" false roundingTx.ins ∧ isSelf "A" false roundingTx.outs) ∧
    ∃ sent received : TxRecord,
      parseTransactionAddresses roundingTx.toParsedTx "A" "vrsc" false
        = .ok (.array [sent, received]) ∧
      sent.type = "sent" ∧
      sent.amount = .number (attributedSum "A" roundingTx.ins).toFixed8 ∧
      sent.fee = some ((sideTotal roundingTx.ins).sub (sideTotal roundingTx.outs)).toFixed8 ∧
      sent.address = (distinctAddresses "A" false roundingTx.outs).head? ∧
      received.type = "received" ∧
      received.amount = .number (attributedSum "A" roundingTx.outs).toFixed8 ∧
      received.address = some "A" ∧
      sent.from_ = some (distinctAddresses "A" false roundingTx.ins) ∧
      sent.to_ = some (distinctAddresses "A" false roundingTx.outs) ∧
      received.from_ = sent.from_ ∧ received.to_ = sent.to_ := by
  have h1 : (attributedSum "A" roundingTx.ins).gtZero = true := by decide!
  have h2 : (attributedSum "A" roundingTx.outs).gtZero = true := by decide!
  have h3 : ¬ (isSelf "A" false roundingTx.ins ∧ isSelf "A" false roundingTx.outs) := by
    decide!
  exact ⟨h1, h2, h3, C1_mixed_two_records roundingTx "A" "vrsc" false h1 h2 h3⟩

/-- The classifier on a payment with change whose decimals differ by 0.00016102: the fee is
the difference of the double sums, 0.00016103. -/
theorem roundingTx_eval :
    parseTransactionAddresses roundingTx.toParsedTx "A" "vrsc" false
      = .ok (.array
          [ { type := "sent", amount := .number (.num (4770775309291688 / 100000000)),
              fee := some (.num (16103 / 100000000)), interest := none,
              address := some "B", timestamp := 1000, txid := some "d0",
              confirmations := 2, from_ := some ["A"], to_ := some ["B", "A"],
              stamp := none },
            { type := "received", amount := .number (.num (573514319541790 / 100000000)),
              fee := none, interest := none, address := some "A", timestamp := 1000,
              txid := some "d0", confirmations := 2, from_ := some ["A"],
              to_ := some ["B", "A"], stamp := none } ]) := by
  decide!

/-- C2 (self-send): when the target is the only address of the input side and of the
output side, with a positive attributed sum on both sides and `skipTargetAddress` false,
the result is one record, not an array, of type `'self'` whose address is the target and
whose fee and amount are both `total.inputs - total.outputs`, the difference of the two
double sums, to 8 decimals. -/
theorem C2_self_send (rt : ResolvedTransaction) (targetAddress network : String)
    (hin : (attributedSum targetAddress rt.ins).gtZero = true)
    (hout : (attributedSum targetAddress rt.outs).gtZero = true)
    (honlyIn : ∀ e ∈ rt.ins, ∀ a, entryAddress e = some a → a = targetAddress)
    (honlyOut : ∀ e ∈ rt.outs, ∀ a, entryAddress e = some a → a = targetAddress) :
    ∃ r : TxRecord,
      parseTransactionAddresses rt.toParsedTx targetAddress network false = .ok (.single r) ∧
      r.type = "self" ∧ r.address = some targetAddress ∧
      r.fee = some ((sideTotal rt.ins).sub (sideTotal rt.outs)).toFixed8 ∧
      r.amount = .number ((sideTotal rt.ins).sub (sideTotal rt.outs)).toFixed8 := by
  have h1 := isSelf_of_only targetAddress rt.ins hin honlyIn
  have h2 := isSelf_of_only targetAddress rt.outs hout honlyOut
  rw [parse_resolved]
  simp only [classifySides, isSelf_iff, hin, hout, h1, h2, and_self, if_true]
  exact ⟨_, rfl, rfl, rfl, rfl, rfl⟩

theorem C2_self_send_witness :
    (attributedSum "A" roundingSelfTx.ins).gtZero = true ∧
    (attributedSum "A" roundingSelfTx.outs).gtZero = true ∧
    (∀ e ∈ roundingSelfTx.ins, ∀ a, entryAddress e = some a → a = "A") ∧
    (∀ e ∈ roundingSelfTx.outs, ∀ a, entryAddress e = some a → a = "A") ∧
    ∃ r : TxRecord,
      parseTransactionAddresses roundingSelfTx.toParsedTx "A" "vrsc" false
        = .ok (.single r) ∧
      r.type = "self" ∧ r.address = some "A" ∧
      r.fee = some
        ((sideTotal roundingSelfTx.ins).sub (sideTotal roundingSelfTx.outs)).toFixed8 ∧
      r.amount = .number
        ((sideTotal roundingSelfTx.ins).sub (sideTotal roundingSelfTx.outs)).toFixed8 := by
  have h1 : (attributedSum "A" roundingSelfTx.ins).gtZero = true := by decide!
  have h2 : (attributedSum "A" roundingSelfTx.outs).gtZero = true := by decide!
  have h3 : ∀ e ∈ roundingSelfTx.ins, ∀ a, entryAddress e = some a → a = "A" := by
    simp [roundingSelfTx, ResolvedTransaction.ins, resolvedEntry, payTo, entryAddress]
  have h4 : ∀ e ∈ roundingSelfTx.outs, ∀ a, entryAddress e = some a → a = "A" := by
    simp [roundingSelfTx, ResolvedTransaction.outs, payTo, entryAddress]
  exact ⟨h1, h2, h3, h4, C2_self_send roundingSelfTx "A" "vrsc" h1 h2 h3 h4⟩

/-- The classifier on a self-send whose decimals differ by 0.00051994: fee and amount are
the difference of the doubles, 0.00051995. -/
theorem roundingSelfTx_eval :
    parseTransactionAddresses roundingSelfTx.toParsedTx "A" "vrsc" false
      = .ok (.single
          { type := "self", amount := .number (.num (51995 / 100000000)),
            fee := some (.num (51995 / 100000000)), interest := none,
            address := some "A", timestamp := 1000, txid := some "d1",
            confirmations := 2, from_ := none, to_ := none, stamp := none }) := by
  decide!

/-- C3 (sent only): when the attributed sum is positive on the input side and zero on the
output side, the result is one record of type `'sent'` with amount `attributed.inputs`, fee
`total.inputs - total.outputs` (to 8 decimals, on the sums the code computes in doubles),
and as address the target when both sides are self-addressed, else the first output-side
distinct address. -/
theorem C3_sent_only (rt : ResolvedTransaction) (targetAddress network : String)
    (skipTargetAddress : Bool)
    (hin : (attributedSum targetAddress rt.ins).gtZero = true)
    (hout : (attributedSum targetAddress rt.outs).isZero = true) :
    ∃ r : TxRecord,
      parseTransactionAddresses rt.toParsedTx targetAddress network skipTargetAddress
        = .ok (.single r) ∧
      r.type = "sent" ∧
      r.amount = .number (attributedSum targetAddress rt.ins).toFixed8 ∧
      r.fee = some ((sideTotal rt.ins).sub (sideTotal rt.outs)).toFixed8 ∧
      r.address =
        (if isSelf targetAddress skipTargetAddress rt.ins ∧
            isSelf targetAddress skipTargetAddress rt.outs
         then some targetAddress
         else (distinctAddresses targetAddress skipTargetAddress rt.outs).head?) := by
  have hin0 := JSNumber.isZero_of_gtZero _ hin
  have hout0 := JSNumber.gtZero_of_isZero _ hout
  rw [parse_resolved]
  simp only [classifySides, isSelf_iff, hin, hout, hin0, hout0, and_true, and_false,
    and_self, false_and, Bool.false_eq_true, if_true, if_false]
  exact ⟨_, rfl, rfl, rfl, rfl, rfl⟩

theorem C3_sent_only_witness :
    (attributedSum "A" roundingSentTx.ins).gtZero = true ∧
    (attributedSum "A" roundingSentTx.outs).isZero = true ∧
    ∃ r : TxRecord,
      parseTransactionAddresses roundingSentTx.toParsedTx "A" "vrsc" false
        = .ok (.single r) ∧
      r.type = "sent" ∧
      r.amount = .number (attributedSum "A" roundingSentTx.ins).toFixed8 ∧
      r.fee = some
        ((sideTotal roundingSentTx.ins).sub (sideTotal roundingSentTx.outs)).toFixed8 ∧
      r.address =
        (if isSelf "A" false roundingSentTx.ins ∧ isSelf "A" false roundingSentTx.outs
         then some "A"
         else (distinctAddresses "A" false roundingSentTx.outs).head?) := by
  have h1 : (attributedSum "A" roundingSentTx.ins).gtZero = true := by decide!
  have h2 : (attributedSum "A" roundingSentTx.outs).isZero = true := by decide!
  exact ⟨h1, h2, C3_sent_only roundingSentTx "A" "vrsc" false h1 h2⟩

/-- The classifier on a payment whose decimals differ by 0.00012240: the fee is the
difference of the doubles, 0.00012241. -/
theorem roundingSentTx_eval :
    parseTransactionAddresses roundingSentTx.toParsedTx "A" "vrsc" false
      = .ok (.single
          { type := "sent", amount := .number (.num (3380054747282992 / 100000000)),
            fee := some (.num (12241 / 100000000)), interest := none,
            address := some "B", timestamp := 1000, txid := some "d2",
            confirmations := 2, from_ := some ["A"], to_ := some ["B"],
            stamp := none }) := by
  decide!

/-- C4 (received only): when the attributed sum is zero on the input side and positive on
the output side, the result is one record of type `'received'` whose amount is
`attributed.outputs`, the values of the outputs addressed to the target added up in
doubles from the first to the last, to 8 decimals, whose address is the target, and which
has no fee field. -/
theorem C4_received_only (rt : ResolvedTransaction) (targetAddress network : String)
    (skipTargetAddress : Bool)
    (hin : (attributedSum targetAddress rt.ins).isZero = true)
    (hout : (attributedSum targetAddress rt.outs).gtZero = true) :
    ∃ r : TxRecord,
      parseTransactionAddresses rt.toParsedTx targetAddress network skipTargetAddress
        = .ok (.single r) ∧
      r.type = "received" ∧
      r.amount = .number
        (((rt.outputs.filter (fun o => entryAddress (.vout o) = some targetAddress)).map
          (fun o => JSNumber.num o.value)).foldl JSNumber.add (.num 0)).toFixed8 ∧
      r.address = some targetAddress ∧ r.fee = none := by
  have hsum : ((rt.outputs.filter (fun o => entryAddress (.vout o) = some targetAddress)).map
      (fun o => JSNumber.num o.value)).foldl JSNumber.add (.num 0)
        = attributedSum targetAddress rt.outs := by
    simp only [attributedSum, ResolvedTransaction.outs, List.filter_map, List.map_map]
    rfl
  have hin0 := JSNumber.gtZero_of_isZero _ hin
  rw [parse_resolved, hsum]
  simp only [classifySides, hin, hout, hin0, and_true, and_self, false_and,
    Bool.false_eq_true, if_true, if_false]
  exact ⟨_, rfl, rfl, rfl, rfl, rfl⟩

theorem C4_received_only_witness :
    (attributedSum "A" roundingReceivedTx.ins).isZero = true ∧
    (attributedSum "A" roundingReceivedTx.outs).gtZero = true ∧
    ∃ r : TxRecord,
      parseTransactionAddresses roundingReceivedTx.toParsedTx "A" "vrsc" false
        = .ok (.single r) ∧
      r.type = "received" ∧
      r.amount = .number
        (((roundingReceivedTx.outputs.filter
            (fun o => entryAddress (.vout o) = some "A")).map
          (fun o => JSNumber.num o.value)).foldl JSNumber.add (.num 0)).toFixed8 ∧
      r.address = some "A" ∧ r.fee = none := by
  have h1 : (attributedSum "A" roundingReceivedTx.ins).isZero = true := by decide!
  have h2 : (attributedSum "A" roundingReceivedTx.outs).gtZero = true := by decide!
  exact ⟨h1, h2, C4_received_only roundingReceivedTx "A" "vrsc" false h1 h2⟩

/-- The classifier on two outputs to the target whose decimals add up to
36794876.51419706: the amount is the double sum, 36794876.51419707. -/
theorem roundingReceivedTx_eval :
    parseTransactionAddresses roundingReceivedTx.toParsedTx "A" "vrsc" false
      = .ok (.single
          { type := "received", amount := .number (.num (3679487651419707 / 100000000)),
            fee := none, interest := none, address := some "A", timestamp := 1000,
            txid := some "d3", confirmations := 2, from_ := some [],
            to_ := some ["A"], stamp := none }) := by
  decide!

theorem ins_value_nonneg (rt : ResolvedTransaction)
    (h : ∀ o, some o ∈ rt.inputs → 0 ≤ o.value) : ∀ e ∈ rt.ins, 0 ≤ entryValue e := by
  intro e he
  obtain ⟨x, hx, rfl⟩ := List.mem_map.1 he
  cases x with
  | none => simp [resolvedEntry, entryValue]
  | some o => simpa [resolvedEntry, entryValue] using h o hx

theorem outs_value_nonneg (rt : ResolvedTransaction)
    (h : ∀ o ∈ rt.outputs, 0 ≤ o.value) : ∀ e ∈ rt.outs, 0 ≤ entryValue e := by
  intro e he
  obtain ⟨o, ho, rfl⟩ := List.mem_map.1 he
  simpa [entryValue] using h o ho

/-- C5 (unattributable): on a resolved transaction with non-negative values the result is
one record with type `'other'`, amount `'unknown'` and address `'unknown'` exactly when the
value attributed to the target is zero on the input side and on the output side. -/
theorem C5_other_iff_nothing_attributed (rt : ResolvedTransaction)
    (targetAddress network : String) (skipTargetAddress : Bool)
    (hvin : ∀ o, some o ∈ rt.inputs → 0 ≤ o.value)
    (hvout : ∀ o ∈ rt.outputs, 0 ≤ o.value) :
    (∃ r : TxRecord,
        parseTransactionAddresses rt.toParsedTx targetAddress network skipTargetAddress
          = .ok (.single r) ∧
        r.type = "other" ∧ r.amount = .unknown ∧ r.address = some "unknown")
      ↔ (attributed targetAddress rt.ins = 0 ∧ attributed targetAddress rt.outs = 0) := by
  have h1 := attributed_nonneg targetAddress rt.ins (ins_value_nonneg rt hvin)
  have h2 := attributed_nonneg targetAddress rt.outs (outs_value_nonneg rt hvout)
  obtain ⟨a, ha, ha0, hai⟩ := attributedSum_sign targetAddress rt.ins (ins_value_nonneg rt hvin)
  obtain ⟨b, hb, hb0, hbi⟩ :=
    attributedSum_sign targetAddress rt.outs (outs_value_nonneg rt hvout)
  have hA : attributed targetAddress rt.ins = 0 ↔ a = 0 := by
    constructor
    · intro h
      rw [h] at hai
      rcases eq_or_lt_of_le ha0 with e | l
      · exact e.symm
      · exact absurd (hai.1 l) (lt_irrefl 0)
    · intro h
      rw [h] at hai
      rcases eq_or_lt_of_le h1 with e | l
      · exact e.symm
      · exact absurd (hai.2 l) (lt_irrefl 0)
  have hB : attributed targetAddress rt.outs = 0 ↔ b = 0 := by
    constructor
    · intro h
      rw [h] at hbi
      rcases eq_or_lt_of_le hb0 with e | l
      · exact e.symm
      · exact absurd (hbi.1 l) (lt_irrefl 0)
    · intro h
      rw [h] at hbi
      rcases eq_or_lt_of_le h2 with e | l
      · exact e.symm
      · exact absurd (hbi.2 l) (lt_irrefl 0)
  rw [parse_resolved, ha, hb, hA, hB]
  rcases eq_or_lt_of_le ha0 with e1 | l1 <;> rcases eq_or_lt_of_le hb0 with e2 | l2
  · simp [classifySides, ← e1, ← e2]
  · simp [classifySides, ← e1, l2, (ne_of_gt l2)]
  · simp [classifySides, ← e2, l1, (ne_of_gt l1)]
  · have n1 := ne_of_gt l1
    have n2 := ne_of_gt l2
    simp only [classifySides, JSNumber.gtZero_num, l1, l2, decide_True, and_self, if_true, n1,
      n2, false_and, iff_false, not_exists]
    intro r
    split_ifs <;> simp <;> rintro rfl <;> simp

theorem C5_other_iff_nothing_attributed_witness :
    (∀ o, some o ∈ foreignTx.inputs → 0 ≤ o.value) ∧
    (∀ o ∈ foreignTx.outputs, 0 ≤ o.value) ∧
    ((∃ r : TxRecord,
        parseTransactionAddresses foreignTx.toParsedTx "A" "vrsc" false = .ok (.single r) ∧
        r.type = "other" ∧ r.amount = .unknown ∧ r.address = some "unknown")
      ↔ (attributed "A" foreignTx.ins = 0 ∧ attributed "A" foreignTx.outs = 0)) := by
  have h1 : ∀ o, some o ∈ foreignTx.inputs → 0 ≤ o.value := by
    norm_num [foreignTx, payTo]
  have h2 : ∀ o ∈ foreignTx.outputs, 0 ≤ o.value := by
    norm_num [foreignTx, payTo]
  exact ⟨h1, h2, C5_other_iff_nothing_attributed foreignTx "A" "vrsc" false h1 h2⟩

/-- Away from the `kmd` network the network id has no bearing on the result. -/
theorem parse_resolved_not_kmd (rt : ResolvedTransaction) (targetAddress network : String)
    (skipTargetAddress : Bool) (hn : network ≠ "kmd") :
    parseTransactionAddresses rt.toParsedTx targetAddress network skipTargetAddress
      = parseTransactionAddresses rt.toParsedTx targetAddress "vrsc" skipTargetAddress := by
  rw [parse_resolved, parse_resolved]
  simp [classifySides, hn]

/-- The classifier on the change scenario, for every network id. -/
theorem changeTx_eval (network : String) :
    parseTransactionAddresses changeTx.toParsedTx "A" network false
      = .ok (.array
          [ { type := "sent", amount := .number (.num 5), fee := some (.num (1 / 100000)),
              interest := none, address := some "B", timestamp := 1000, txid := some "c0",
              confirmations := 2, from_ := some ["A"], to_ := some ["B", "A"],
              stamp := none },
            { type := "received", amount := .number (.num (199999 / 100000)), fee := none,
              interest := none, address := some "A", timestamp := 1000, txid := some "c0",
              confirmations := 2, from_ := some ["A"], to_ := some ["B", "A"],
              stamp := none } ]) := by
  by_cases hn : network = "kmd"
  · subst hn
    decide!
  · rw [parse_resolved_not_kmd _ _ _ _ hn]
    decide!

/-- The classifier on a self-send of the `kmd` network whose outputs exceed its inputs. -/
theorem claimTx_eval :
    parseTransactionAddresses claimTx.toParsedTx "A" "kmd" false
      = .ok (.single
          { type := "self", amount := .number (.num (-1 / 2)), fee := some (.num (-1 / 2)),
            interest := some (.num (-1 / 2)), address := some "A", timestamp := 1000,
            txid := some "c2", confirmations := 2, from_ := none, to_ := none,
            stamp := none }) := by
  decide!

/-- The classifier on a payment with change of the `kmd` network whose outputs exceed its
inputs: the received record carries the interest, the sent record does not. -/
theorem claimPairTx_eval :
    parseTransactionAddresses claimPairTx.toParsedTx "A" "kmd" false
      = .ok (.array
          [ { type := "sent", amount := .number (.num 1), fee := some (.num (-1 / 10)),
              interest := none, address := some "B", timestamp := 1000, txid := some "c6",
              confirmations := 2, from_ := some ["A"], to_ := some ["B", "A"],
              stamp := none },
            { type := "received", amount := .number (.num (3 / 5)), fee := none,
              interest := some (.num (-1 / 10)), address := some "A", timestamp := 1000,
              txid := some "c6", confirmations := 2, from_ := some ["A"],
              to_ := some ["B", "A"], stamp := none } ]) := by
  decide!

/-- The classifier on a self-send of the `kmd` network whose decimals balance, 0.3 in and
0.1 + 0.2 out: the double difference is negative, so `interest` is attached, and it is the
negative zero that `toFixed(8)` makes of it. -/
theorem dustClaimTx_eval :
    parseTransactionAddresses dustClaimTx.toParsedTx "A" "kmd" false
      = .ok (.single
          { type := "self", amount := .number .negZero, fee := some .negZero,
            interest := some .negZero, address := some "A", timestamp := 1000,
            txid := some "d4", confirmations := 2, from_ := none, to_ := none,
            stamp := none }) := by
  decide!

/-- C6 as stated fails: on the change scenario the result is not a pair whose sent record has
amount 3.0. -/
theorem C6_sent_amount_counterexample :
    ¬ ∃ sent received : TxRecord,
        parseTransactionAddresses changeTx.toParsedTx "A" "vrsc" false
          = .ok (.array [sent, received]) ∧
        sent.type = "sent" ∧ sent.amount = .number (.num 3) ∧
        sent.fee = some (.num (1 / 100000)) ∧ sent.address = some "B" ∧
        received.type = "received" ∧ received.amount = .number (.num (199999 / 100000)) ∧
        received.address = some "A" := by
  rw [changeTx_eval]
  rintro ⟨sent, received, h, -, hamount, -⟩
  simp only [Except.ok.injEq, ParseResult.array.injEq, List.cons.injEq, and_true] at h
  rw [← h.1] at hamount
  norm_num at hamount

/-- C6 (change scenario), amended: one input of 5.0 from `A`, outputs 3.0 to `B` and 1.99999
to `A`, target `A`: the result is the array of a sent record with amount 5.0 (the value
attributed to `A` on the input side), fee 0.00001 and address `B`, and a received record
with amount 1.99999 and address `A`. -/
theorem C6_change_scenario (network : String) :
    ∃ sent received : TxRecord,
      parseTransactionAddresses changeTx.toParsedTx "A" network false
        = .ok (.array [sent, received]) ∧
      sent.type = "sent" ∧ sent.amount = .number (.num 5) ∧
      sent.fee = some (.num (1 / 100000)) ∧ sent.address = some "B" ∧
      received.type = "received" ∧ received.amount = .number (.num (199999 / 100000)) ∧
      received.address = some "A" :=
  ⟨_, _, changeTx_eval network, rfl, rfl, rfl, rfl, rfl, rfl, rfl⟩

/-- C7 as stated fails: all values of the transaction are non-negative, and the one record
returned has the numeric amount -0.5. -/
theorem C7_self_amount_counterexample :
    (∀ o, some o ∈ claimTx.inputs → 0 ≤ o.value) ∧ (∀ o ∈ claimTx.outputs, 0 ≤ o.value) ∧
    ∃ r q, parseTransactionAddresses claimTx.toParsedTx "A" "kmd" false = .ok (.single r) ∧
      r.amount = .number (.num q) ∧ q < 0 :=
  ⟨by norm_num [claimTx, payTo], by norm_num [claimTx, payTo], _, -1 / 2,
    claimTx_eval, rfl, by norm_num⟩

/-- The decision table gives non-negative amounts to sent and received records when the two
attributed sums are non-negative numbers, and gives a self record its fee as amount. -/
theorem classifySides_amount (tx : ParsedTx) (targetAddress network : String)
    (ins outs : SideAcc) (a b : ℚ) (ha : ins.sum = .num a) (hb : outs.sum = .num b)
    (h1 : 0 ≤ a) (h2 : 0 ≤ b) :
    ∀ r ∈ (classifySides tx targetAddress network ins outs).records,
      ((r.type = "sent" ∨ r.type = "received") →
        ∃ q : ℚ, r.amount = .number (.num q) ∧ 0 ≤ q) ∧
      (r.type = "self" →
        r.amount = .number (ins.total.sub outs.total).toFixed8 ∧
        r.fee = some (ins.total.sub outs.total).toFixed8) := by
  have r1 := roundTo8_nonneg _ (round53_nonneg a h1)
  have r2 := roundTo8_nonneg _ (round53_nonneg b h2)
  have f1 := JSNumber.toFixed8_num_nonneg a h1
  have f2 := JSNumber.toFixed8_num_nonneg b h2
  cases g1 : ins.sum.gtZero <;> cases g2 : outs.sum.gtZero <;>
  cases z1 : ins.sum.isZero <;> cases z2 : outs.sum.isZero <;>
  cases s1 : isSelfSend targetAddress (setToArray ins.addresses) <;>
  cases s2 : isSelfSend targetAddress (setToArray outs.addresses) <;>
  simp [classifySides, g1, g2, z1, z2, s1, s2, ParseResult.records] <;>
  simp [ha, hb, f1, f2, r1, r2]

/-- C7 (amount invariant), amended: on a resolved transaction with non-negative values every
record of type `'sent'` or `'received'` has a numeric amount that is `>= 0`; the amount of a
`'self'` record is its fee, `total.inputs - total.outputs` to 8 decimals. -/
theorem C7_amount_nonneg (rt : ResolvedTransaction) (targetAddress network : String)
    (skipTargetAddress : Bool)
    (hvin : ∀ o, some o ∈ rt.inputs → 0 ≤ o.value)
    (hvout : ∀ o ∈ rt.outputs, 0 ≤ o.value) :
    ∃ res, parseTransactionAddresses rt.toParsedTx targetAddress network skipTargetAddress
        = .ok res ∧
      ∀ r ∈ res.records,
        ((r.type = "sent" ∨ r.type = "received") →
          ∃ q : ℚ, r.amount = .number (.num q) ∧ 0 ≤ q) ∧
        (r.type = "self" →
          r.amount = .number ((sideTotal rt.ins).sub (sideTotal rt.outs)).toFixed8 ∧
          r.fee = some ((sideTotal rt.ins).sub (sideTotal rt.outs)).toFixed8) := by
  obtain ⟨a, ha, ha0, -⟩ := attributedSum_sign targetAddress rt.ins (ins_value_nonneg rt hvin)
  obtain ⟨b, hb, hb0, -⟩ :=
    attributedSum_sign targetAddress rt.outs (outs_value_nonneg rt hvout)
  rw [parse_resolved]
  exact ⟨_, rfl, classifySides_amount rt.toParsedTx targetAddress network
    { total := sideTotal rt.ins, sum := attributedSum targetAddress rt.ins,
      addresses := listedAddresses targetAddress skipTargetAddress rt.ins }
    { total := sideTotal rt.outs, sum := attributedSum targetAddress rt.outs,
      addresses := listedAddresses targetAddress skipTargetAddress rt.outs }
    a b ha hb ha0 hb0⟩

theorem C7_amount_nonneg_witness :
    (∀ o, some o ∈ changeTx.inputs → 0 ≤ o.value) ∧
    (∀ o ∈ changeTx.outputs, 0 ≤ o.value) ∧
    ∃ res, parseTransactionAddresses changeTx.toParsedTx "A" "vrsc" false = .ok res ∧
      ∀ r ∈ res.records,
        ((r.type = "sent" ∨ r.type = "received") →
          ∃ q : ℚ, r.amount = .number (.num q) ∧ 0 ≤ q) ∧
        (r.type = "self" →
          r.amount = .number ((sideTotal changeTx.ins).sub (sideTotal changeTx.outs)).toFixed8 ∧
          r.fee = some ((sideTotal changeTx.ins).sub (sideTotal changeTx.outs)).toFixed8) := by
  have h1 : ∀ o, some o ∈ changeTx.inputs → 0 ≤ o.value := by
    norm_num [changeTx, payTo]
  have h2 : ∀ o ∈ changeTx.outputs, 0 ≤ o.value := by
    norm_num [changeTx, payTo]
  exact ⟨h1, h2, C7_amount_nonneg changeTx "A" "vrsc" false h1 h2⟩

/-- C8 (claimed interest): when the network id is `'kmd'`, the difference
`total.inputs - total.outputs` of the double totals is negative and the attributed sum is
positive on both sides, the result is, when both sides are self-addressed, one record of
type `'self'` that carries the difference (to 8 decimals) as `interest`, and otherwise the
array of a sent record without `interest` and a received record that carries it; when the
network id is not `'kmd'` or the difference is not negative, the classifier returns and no
record has an `interest` field; nor has any when the attributed sum is not positive on both
sides. -/
theorem C8_claimed_interest (rt : ResolvedTransaction) (targetAddress network : String)
    (skipTargetAddress : Bool) :
    (network = "kmd" → ((sideTotal rt.ins).sub (sideTotal rt.outs)).ltZero = true →
      (attributedSum targetAddress rt.ins).gtZero = true →
      (attributedSum targetAddress rt.outs).gtZero = true →
        ((isSelf targetAddress skipTargetAddress rt.ins ∧
            isSelf targetAddress skipTargetAddress rt.outs) →
          ∃ r : TxRecord,
            parseTransactionAddresses rt.toParsedTx targetAddress network skipTargetAddress
              = .ok (.single r) ∧
            r.type = "self" ∧
            r.interest = some ((sideTotal rt.ins).sub (sideTotal rt.outs)).toFixed8) ∧
        (¬ (isSelf targetAddress skipTargetAddress rt.ins ∧
            isSelf targetAddress skipTargetAddress rt.outs) →
          ∃ sent received : TxRecord,
            parseTransactionAddresses rt.toParsedTx targetAddress network skipTargetAddress
              = .ok (.array [sent, received]) ∧
            sent.type = "sent" ∧ received.type = "received" ∧ sent.interest = none ∧
            received.interest
              = some ((sideTotal rt.ins).sub (sideTotal rt.outs)).toFixed8)) ∧
    ((¬ (network = "kmd" ∧ ((sideTotal rt.ins).sub (sideTotal rt.outs)).ltZero = true) ∨
        ¬ ((attributedSum targetAddress rt.ins).gtZero = true ∧
          (attributedSum targetAddress rt.outs).gtZero = true)) →
      ∃ res, parseTransactionAddresses rt.toParsedTx targetAddress network skipTargetAddress
          = .ok res ∧
        ∀ r ∈ res.records, r.interest = none) := by
  rw [parse_resolved]
  constructor
  · intro hk hneg hin hout
    constructor
    · intro hself
      simp only [classifySides, isSelf_iff, hin, hout, hself, hk, hneg, and_self, if_true]
      exact ⟨_, rfl, rfl, rfl⟩
    · intro hself
      simp only [classifySides, isSelf_iff, hin, hout, hself, hk, hneg, and_self, if_true,
        if_false]
      exact ⟨_, _, rfl, rfl, rfl, rfl, rfl⟩
  · intro h
    refine ⟨_, rfl, ?_⟩
    revert h
    cases g1 : (attributedSum targetAddress rt.ins).gtZero <;>
    cases g2 : (attributedSum targetAddress rt.outs).gtZero <;>
    cases z1 : (attributedSum targetAddress rt.ins).isZero <;>
    cases z2 : (attributedSum targetAddress rt.outs).isZero <;>
    cases s1 : isSelfSend targetAddress
      (setToArray (listedAddresses targetAddress skipTargetAddress rt.ins)) <;>
    cases s2 : isSelfSend targetAddress
      (setToArray (listedAddresses targetAddress skipTargetAddress rt.outs)) <;>
    cases k : ((sideTotal rt.ins).sub (sideTotal rt.outs)).ltZero <;>
    by_cases hn : network = "kmd" <;>
    simp [classifySides, g1, g2, z1, z2, s1, s2, k, hn, ParseResult.records]

theorem C8_claimed_interest_witness :
    (∃ r : TxRecord,
      parseTransactionAddresses claimTx.toParsedTx "A" "kmd" false = .ok (.single r) ∧
      r.type = "self" ∧
      r.interest = some ((sideTotal claimTx.ins).sub (sideTotal claimTx.outs)).toFixed8) ∧
    (∃ sent received : TxRecord,
      parseTransactionAddresses claimPairTx.toParsedTx "A" "kmd" false
        = .ok (.array [sent, received]) ∧
      sent.type = "sent" ∧ received.type = "received" ∧ sent.interest = none ∧
      received.interest
        = some ((sideTotal claimPairTx.ins).sub (sideTotal claimPairTx.outs)).toFixed8) ∧
    (∃ res, parseTransactionAddresses claimTx.toParsedTx "A" "vrsc" false = .ok res ∧
      ∀ r ∈ res.records, r.interest = none) :=
  ⟨((C8_claimed_interest claimTx "A" "kmd" false).1 rfl (by decide!) (by decide!)
      (by decide!)).1 (by decide!),
    ((C8_claimed_interest claimPairTx "A" "kmd" false).1 rfl (by decide!) (by decide!)
      (by decide!)).2 (by decide!),
    (C8_claimed_interest claimTx "A" "vrsc" false).2 (Or.inl (by decide!))⟩

/-! ## formatTx: lookup failures -/

theorem resolveInputs_nil (inputs : List Vin) :
    ∀ e ∈ resolveInputs [] inputs, e = TxEntry.unresolved := by
  intro e he
  obtain ⟨p, -, rfl⟩ := List.mem_map.1 he
  simp [resolveInput]

theorem attributedSum_of_no_address (targetAddress : String) (side : List TxEntry)
    (h : ∀ e ∈ side, e = TxEntry.unresolved) : attributedSum targetAddress side = .num 0 := by
  apply attributedSum_of_not_mem
  intro hmem
  obtain ⟨e, he, hadr⟩ := List.mem_filterMap.1 hmem
  rw [h e he] at hadr
  simp [entryAddress] at hadr

/-- The decision table when nothing is attributed on the input side: one record, received
or other. -/
theorem classifySides_no_input (tx : ParsedTx) (targetAddress network : String)
    (ins outs : SideAcc) (h : ins.sum = .num 0) :
    ∃ r, classifySides tx targetAddress network ins outs = .single r ∧
      (r.type = "received" ∨ r.type = "other") := by
  cases g2 : outs.sum.gtZero <;> simp [classifySides, h, g2]

theorem stampResult_single (transactionObj : TransactionObj) (txOutDecoded : Decoded)
    (r : TxRecord) (h : r.type ≠ "") :
    stampResult transactionObj txOutDecoded (.single r)
      = .single { r with stamp := some (stampOf transactionObj txOutDecoded) } := by
  simp [stampResult, h]

/-- With an entry of status `'not found'` and no error code in `rawIns`, no parent is
decoded and a decodable `rawOut` is classified with every input unresolved. -/
theorem formatTx_not_found (lib : Lib) (now : Int) (transactionObj : TransactionObj)
    (targetAddress : String) (network : Network) (currentHeight : Int)
    (rawIns : List RawTx) (raw : String) (out : Decoded)
    (hr : transactionObj.rawIns = some rawIns)
    (hnf : ∃ e ∈ rawIns, e.notFound = true)
    (hc : ∀ e ∈ rawIns, e.hasCode = false)
    (hraw : transactionObj.rawOut = some raw) (hne : raw ≠ "")
    (hd : TxDecoder lib (.hex raw) network = .ok (some out)) :
    ∃ r, formatTx lib now transactionObj targetAddress network currentHeight
        = .ok (some (.single r)) ∧ (r.type = "received" ∨ r.type = "other") := by
  have hall : rawIns.all (fun txIn => !txIn.hasCode) = true := by
    rw [List.all_eq_true]
    intro e he
    simp [hc e he]
  have hnot : rawIns.all (fun item => !item.notFound) = false := by
    rw [List.all_eq_false]
    obtain ⟨e, he, hn⟩ := hnf
    exact ⟨e, he, by simp [hn]⟩
  have hins : ∀ e ∈ resolveInputs [] out.inputs, e = TxEntry.unresolved :=
    resolveInputs_nil out.inputs
  have hund : TxEntry.undefined ∉ resolveInputs [] out.inputs := by
    intro h
    have := hins _ h
    cases this
  have hund2 : TxEntry.undefined ∉ out.outputs.map TxEntry.vout := by
    intro h
    obtain ⟨x, -, hx⟩ := List.mem_map.1 h
    cases hx
  simp only [formatTx, hr, hall, hraw, hne, hd, decodeIns, hnot, Bool.not_true,
    Bool.false_eq_true, if_false, ne_eq, not_false_eq_true, if_true]
  rw [parse_eq_classify _ _ _ _ (by simp) hund hund2]
  simp only [attributedSum_of_no_address targetAddress _ hins]
  obtain ⟨r, hcl, hty⟩ := classifySides_no_input
    { format := .decoded out.format, inputs := resolveInputs [] out.inputs,
      outputs := out.outputs.map TxEntry.vout, height := transactionObj.height,
      timestamp := if transactionObj.height = 0 then now else transactionObj.timestamp,
      confirmations :=
        if transactionObj.height = 0 then 0 else currentHeight - transactionObj.height }
    targetAddress network.coin
    { total := sideTotal (resolveInputs [] out.inputs), sum := .num 0,
      addresses := listedAddresses targetAddress false (resolveInputs [] out.inputs) }
    { total := sideTotal (out.outputs.map TxEntry.vout),
      sum := attributedSum targetAddress (out.outputs.map TxEntry.vout),
      addresses := listedAddresses targetAddress false (out.outputs.map TxEntry.vout) } rfl
  rw [hcl]
  have hty2 : r.type ≠ "" := by
    rcases hty with h | h <;> simp [h]
  rw [stampResult_single _ _ _ hty2]
  exact ⟨_, rfl, hty⟩

/-- An entry of `rawIns` with a truthy `code` makes `formatTx` return `false`. -/
theorem formatTx_code (lib : Lib) (now : Int) (transactionObj : TransactionObj)
    (targetAddress : String) (network : Network) (currentHeight : Int) (rawIns : List RawTx)
    (hr : transactionObj.rawIns = some rawIns)
    (hcode : ∃ txIn ∈ rawIns, txIn.hasCode = true) :
    formatTx lib now transactionObj targetAddress network currentHeight = .ok none := by
  have hall : rawIns.all (fun txIn => !txIn.hasCode) = false := by
    rw [List.all_eq_false]
    obtain ⟨e, he, hc⟩ := hcode
    exact ⟨e, he, by simp [hc]⟩
  simp [formatTx, hr, hall]

/-- The bundle with the `'not found'` parent is classified: one received record of 2.0. -/
theorem notFoundBundle_eval :
    ∃ r, formatTx sampleLib 1700000000 notFoundBundle "A" sampleNetwork 12
        = .ok (some (.single r)) ∧
      r.type = "received" ∧ r.amount = .number (.num 2) ∧ r.address = some "A" := by
  have h : (match formatTx sampleLib 1700000000 notFoundBundle "A" sampleNetwork 12 with
      | .ok (some (.single r)) =>
        decide (r.type = "received" ∧ r.amount = .number (.num 2) ∧ r.address = some "A")
      | _ => false) = true := by
    decide!
  split at h
  · next r heq => exact ⟨r, heq, of_decide_eq_true h⟩
  · cases h

/-- C9 as stated fails: the only parent entry of the bundle is a lookup-failure marker of
status `'not found'`, and `formatTx` returns a received record instead of `false`. -/
theorem C9_not_found_counterexample :
    (∃ rawIns, notFoundBundle.rawIns = some rawIns ∧ ∃ e ∈ rawIns, e.notFound = true) ∧
    formatTx sampleLib 1700000000 notFoundBundle "A" sampleNetwork 12 ≠ .ok none ∧
    ∃ r, formatTx sampleLib 1700000000 notFoundBundle "A" sampleNetwork 12
        = .ok (some (.single r)) ∧
      r.type = "received" ∧ r.amount = .number (.num 2) ∧ r.address = some "A" := by
  refine ⟨⟨_, rfl, _, List.mem_singleton.2 rfl, rfl⟩, ?_, notFoundBundle_eval⟩
  obtain ⟨r, h, -⟩ := notFoundBundle_eval
  rw [h]
  simp

/-- C9 (lookup failure), amended: in a bundle with a parent entry of status `'not found'`,
`formatTx` returns `false` when some parent entry carries a truthy error code; when none
does, no parent is decoded, every input is unresolved, and a `rawOut` that decodes is still
classified: the result is one record of type `'received'` or `'other'`. -/
theorem C9_lookup_failure (lib : Lib) (now : Int) (transactionObj : TransactionObj)
    (targetAddress : String) (network : Network) (currentHeight : Int) (rawIns : List RawTx)
    (hr : transactionObj.rawIns = some rawIns)
    (hnf : ∃ e ∈ rawIns, e.notFound = true) :
    ((∃ e ∈ rawIns, e.hasCode = true) →
      formatTx lib now transactionObj targetAddress network currentHeight = .ok none) ∧
    ((∀ e ∈ rawIns, e.hasCode = false) →
      ∀ raw out, transactionObj.rawOut = some raw → raw ≠ "" →
        TxDecoder lib (.hex raw) network = .ok (some out) →
        ∃ r, formatTx lib now transactionObj targetAddress network currentHeight
            = .ok (some (.single r)) ∧
          (r.type = "received" ∨ r.type = "other")) :=
  ⟨fun hcode => formatTx_code lib now transactionObj targetAddress network currentHeight
      rawIns hr hcode,
   fun hc raw out hraw hne hd => formatTx_not_found lib now transactionObj targetAddress
      network currentHeight rawIns raw out hr hnf hc hraw hne hd⟩

theorem C9_lookup_failure_witness :
    notFoundBundle.rawIns = some [RawTx.object none (some "not found")] ∧
    (∃ e ∈ [RawTx.object none (some "not found")], e.notFound = true) ∧
    ((∃ e ∈ [RawTx.object none (some "not found")], e.hasCode = true) →
      formatTx sampleLib 1700000000 notFoundBundle "A" sampleNetwork 12 = .ok none) ∧
    ((∀ e ∈ [RawTx.object none (some "not found")], e.hasCode = false) →
      ∀ raw out, notFoundBundle.rawOut = some raw → raw ≠ "" →
        TxDecoder sampleLib (.hex raw) sampleNetwork = .ok (some out) →
        ∃ r, formatTx sampleLib 1700000000 notFoundBundle "A" sampleNetwork 12
            = .ok (some (.single r)) ∧
          (r.type = "received" ∨ r.type = "other")) := by
  have h1 : notFoundBundle.rawIns = some [RawTx.object none (some "not found")] := rfl
  have h2 : ∃ e ∈ [RawTx.object none (some "not found")], e.notFound = true :=
    ⟨_, List.mem_singleton.2 rfl, rfl⟩
  exact ⟨h1, h2, C9_lookup_failure sampleLib 1700000000 notFoundBundle "A" sampleNetwork 12
    [RawTx.object none (some "not found")] h1 h2⟩

/-- C10 (per-item error code): when `rawIns` is an array with an entry whose `code` is
truthy, `formatTx` returns `false`, whatever `rawOut`, the other entries, the target
address, the network and the current height are. -/
theorem C10_error_code_fails (lib : Lib) (now : Int) (transactionObj : TransactionObj)
    (targetAddress : String) (network : Network) (currentHeight : Int) (rawIns : List RawTx)
    (hr : transactionObj.rawIns = some rawIns)
    (hcode : ∃ txIn ∈ rawIns, txIn.hasCode = true) :
    formatTx lib now transactionObj targetAddress network currentHeight = .ok none :=
  formatTx_code lib now transactionObj targetAddress network currentHeight rawIns hr hcode

theorem C10_error_code_fails_witness :
    errorCodeBundle.rawIns = some [RawTx.object (some (-5)) none] ∧
    (∃ txIn ∈ [RawTx.object (some (-5)) none], txIn.hasCode = true) ∧
    formatTx sampleLib 1700000000 errorCodeBundle "A" sampleNetwork 12 = .ok none := by
  have h1 : errorCodeBundle.rawIns = some [RawTx.object (some (-5)) none] := rfl
  have h2 : ∃ txIn ∈ [RawTx.object (some (-5)) none], txIn.hasCode = true :=
    ⟨_, List.mem_singleton.2 rfl, by decide⟩
  exact ⟨h1, h2, C10_error_code_fails sampleLib 1700000000 errorCodeBundle "A" sampleNetwork 12
    [RawTx.object (some (-5)) none] h1 h2⟩

/-! ## The array made from a `Set` -/

theorem setToArray_foldl (l acc : List String) :
    l.foldl (fun s a => if a ∈ s then s else s ++ [a]) acc
      = acc ++ (setToArray l).filter (fun b => decide (b ∉ acc)) := by
  induction l generalizing acc with
  | nil => simp [setToArray]
  | cons x l ih =>
    have h0 : setToArray (x :: l)
        = [x] ++ (setToArray l).filter (fun b => decide (b ∉ [x])) := by
      simp only [setToArray, List.foldl_cons, List.not_mem_nil, if_false, List.nil_append]
      exact ih [x]
    rw [h0, List.foldl_cons]
    by_cases hx : x ∈ acc
    · rw [if_pos hx, ih acc]
      congr 1
      rw [List.filter_append, List.filter_filter]
      have h1 : [x].filter (fun b => decide (b ∉ acc)) = [] := by simp [hx]
      rw [h1, List.nil_append]
      apply List.filter_congr
      intro b _
      by_cases hb : b ∈ acc
      · simp [hb]
      · have : b ≠ x := fun h => hb (h ▸ hx)
        simp [hb, this]
    · rw [if_neg hx, ih (acc ++ [x]), List.append_assoc]
      congr 1
      rw [List.filter_append, List.filter_filter]
      have h1 : [x].filter (fun b => decide (b ∉ acc)) = [x] := by simp [hx]
      rw [h1]
      congr 1
      apply List.filter_congr
      intro b _
      simp [not_or]

/-- The array of a `Set` starts with the first element, followed by the array of the rest
without that element. -/
theorem setToArray_cons (x : String) (l : List String) :
    setToArray (x :: l) = x :: (setToArray l).filter (fun b => decide (b ≠ x)) := by
  have h := setToArray_foldl l [x]
  simp only [setToArray, List.foldl_cons, List.not_mem_nil, if_false, List.nil_append] at h ⊢
  rw [h]
  simp

theorem mem_setToArray (a : String) (l : List String) : a ∈ setToArray l ↔ a ∈ l := by
  induction l with
  | nil => simp [setToArray]
  | cons x l ih =>
    rw [setToArray_cons]
    by_cases h : a = x
    · simp [h]
    · simp [h, ih]

theorem nodup_setToArray (l : List String) : (setToArray l).Nodup := by
  induction l with
  | nil => simp [setToArray]
  | cons x l ih =>
    rw [setToArray_cons, List.nodup_cons]
    exact ⟨by simp, ih.filter _⟩

/-- The array of a `Set` lists its elements in the order of their first occurrence. -/
theorem setToArray_first_occurrence (l : List String) :
    (setToArray l).Pairwise (fun a b => l.indexOf a < l.indexOf b) := by
  induction l with
  | nil => simp [setToArray]
  | cons x l ih =>
    rw [setToArray_cons, List.pairwise_cons]
    constructor
    · intro b hb
      have hbx : b ≠ x := by simpa using (List.mem_filter.1 hb).2
      rw [List.indexOf_cons_self, List.indexOf_cons_ne _ (Ne.symm hbx)]
      exact Nat.succ_pos _
    · refine (ih.filter _).imp_of_mem ?_
      intro a b ha hb hab
      have hax : a ≠ x := by simpa using (List.mem_filter.1 ha).2
      have hbx : b ≠ x := by simpa using (List.mem_filter.1 hb).2
      rw [List.indexOf_cons_ne _ (Ne.symm hax), List.indexOf_cons_ne _ (Ne.symm hbx)]
      exact Nat.succ_lt_succ hab

/-! ## The address lists of the records -/

/-- The `from` and `to` of a record, when present, are the de-duplicated address lists. -/
theorem classifySides_from_to (tx : ParsedTx) (targetAddress network : String)
    (ins outs : SideAcc) :
    ∀ r ∈ (classifySides tx targetAddress network ins outs).records,
      (r.from_ = none ∨ r.from_ = some (setToArray ins.addresses)) ∧
      (r.to_ = none ∨ r.to_ = some (setToArray outs.addresses)) := by
  cases g1 : ins.sum.gtZero <;> cases g2 : outs.sum.gtZero <;>
  cases z1 : ins.sum.isZero <;> cases z2 : outs.sum.isZero <;>
  cases s1 : isSelfSend targetAddress (setToArray ins.addresses) <;>
  cases s2 : isSelfSend targetAddress (setToArray outs.addresses) <;>
  simp [classifySides, g1, g2, z1, z2, s1, s2, ParseResult.records]

theorem mem_listedAddresses (targetAddress : String) (skipTargetAddress : Bool)
    (side : List TxEntry) (a : String) :
    a ∈ listedAddresses targetAddress skipTargetAddress side
      ↔ (∃ e ∈ side, entryAddress e = some a) ∧
        ¬ (a = targetAddress ∧ skipTargetAddress = true) := by
  simp only [listedAddresses, List.mem_filter, List.mem_filterMap]
  by_cases h1 : a = targetAddress <;> cases skipTargetAddress <;> simp [h1]

theorem respectsSkip_distinct (targetAddress : String) (skipTargetAddress : Bool)
    (side : List TxEntry) :
    RespectsSkip targetAddress skipTargetAddress side
      (distinctAddresses targetAddress skipTargetAddress side) := by
  refine ⟨fun hs => ⟨?_, ?_⟩, fun hs h => ?_⟩
  · rw [distinctAddresses, mem_setToArray, mem_listedAddresses]
    simp [hs]
  · intro a ha h
    rw [distinctAddresses, mem_setToArray, mem_listedAddresses]
    exact ⟨h, fun hc => ha hc.1⟩
  · rw [distinctAddresses, mem_setToArray, mem_listedAddresses]
    exact ⟨h, by simp [hs]⟩

theorem isDistinctListOf_distinct (targetAddress : String) (side : List TxEntry) :
    IsDistinctListOf side (distinctAddresses targetAddress false side) := by
  rw [distinctAddresses, listedAddresses_noskip]
  refine ⟨nodup_setToArray _, fun a => ?_, setToArray_first_occurrence _⟩
  rw [mem_setToArray, List.mem_filterMap]

/-- C17 (skipTargetAddress): on every resolved transaction, the `from` and `to` lists of
every returned record leave the target address out when `skipTargetAddress` is true, while
every other address of the side is still listed; when it is false the target is listed as
soon as an entry of the side is addressed to it. -/
theorem C17_skip_target_address (rt : ResolvedTransaction) (targetAddress network : String)
    (skipTargetAddress : Bool) :
    ∃ res, parseTransactionAddresses rt.toParsedTx targetAddress network skipTargetAddress
        = .ok res ∧
      ∀ r ∈ res.records,
        (∀ l, r.from_ = some l → RespectsSkip targetAddress skipTargetAddress rt.ins l) ∧
        (∀ l, r.to_ = some l → RespectsSkip targetAddress skipTargetAddress rt.outs l) := by
  rw [parse_resolved]
  refine ⟨_, rfl, fun r hr => ?_⟩
  have h := classifySides_from_to rt.toParsedTx targetAddress network
    { total := sideTotal rt.ins, sum := attributedSum targetAddress rt.ins,
      addresses := listedAddresses targetAddress skipTargetAddress rt.ins }
    { total := sideTotal rt.outs, sum := attributedSum targetAddress rt.outs,
      addresses := listedAddresses targetAddress skipTargetAddress rt.outs } r hr
  constructor
  · intro l hl
    rcases h.1 with h1 | h1
    · rw [h1] at hl
      cases hl
    · rw [h1] at hl
      cases hl
      exact respectsSkip_distinct targetAddress skipTargetAddress rt.ins
  · intro l hl
    rcases h.2 with h2 | h2
    · rw [h2] at hl
      cases hl
    · rw [h2] at hl
      cases hl
      exact respectsSkip_distinct targetAddress skipTargetAddress rt.outs

/-- C18 (distinct address sets): on every resolved transaction, with `skipTargetAddress`
false, the `from` and `to` lists of every returned record have no duplicates, hold exactly
the addresses of the entries of their side (an entry without an address, such as an
unresolved input, adds nothing), and list them in the order of their first occurrence. -/
theorem C18_distinct_address_sets (rt : ResolvedTransaction) (targetAddress network : String) :
    ∃ res, parseTransactionAddresses rt.toParsedTx targetAddress network false = .ok res ∧
      ∀ r ∈ res.records,
        (∀ l, r.from_ = some l → IsDistinctListOf rt.ins l) ∧
        (∀ l, r.to_ = some l → IsDistinctListOf rt.outs l) := by
  rw [parse_resolved]
  refine ⟨_, rfl, fun r hr => ?_⟩
  have h := classifySides_from_to rt.toParsedTx targetAddress network
    { total := sideTotal rt.ins, sum := attributedSum targetAddress rt.ins,
      addresses := listedAddresses targetAddress false rt.ins }
    { total := sideTotal rt.outs, sum := attributedSum targetAddress rt.outs,
      addresses := listedAddresses targetAddress false rt.outs } r hr
  constructor
  · intro l hl
    rcases h.1 with h1 | h1
    · rw [h1] at hl
      cases hl
    · rw [h1] at hl
      cases hl
      exact isDistinctListOf_distinct targetAddress rt.ins
  · intro l hl
    rcases h.2 with h2 | h2
    · rw [h2] at hl
      cases hl
    · rw [h2] at hl
      cases hl
      exact isDistinctListOf_distinct targetAddress rt.outs

/-! ## TxDecoder: what a successful decode holds -/

theorem decodeInputEntry_ok (lib : Lib) (input : LibInput) (vin : Vin)
    (h : decodeInputEntry lib input = .ok vin) :
    vin.n = some input.index ∧ vin.script = some (lib.toASM input.script) ∧
      vin.sequence = some input.sequence := by
  unfold decodeInputEntry at h
  split at h
  · cases h
  · cases h
    exact ⟨rfl, rfl, rfl⟩
  · cases h
    exact ⟨rfl, rfl, rfl⟩

theorem decodeInputFrom_ok (lib : Lib) (ins : List LibInput) (vins : List Vin)
    (h : decodeInputFrom lib ins = .ok vins) :
    List.Forall₂ (fun input vin => decodeInputEntry lib input = .ok vin) ins vins := by
  induction ins generalizing vins with
  | nil =>
    simp only [decodeInputFrom] at h
    cases h
    exact List.Forall₂.nil
  | cons input ins ih =>
    simp only [decodeInputFrom] at h
    cases h1 : decodeInputEntry lib input with
    | error f => simp [h1] at h
    | ok vin =>
      cases h2 : decodeInputFrom lib ins with
      | error f => simp [h1, h2] at h
      | ok rest =>
        simp only [h1, h2] at h
        cases h
        exact List.Forall₂.cons h1 (ih rest h2)

/-- The object literal of `TxDecoder`: its fields in terms of the library transaction. -/
theorem buildDecoded_ok (lib : Lib) (tx : LibTx) (txid : String) (network : Network)
    (d : Decoded) (h : buildDecoded lib tx txid network = .ok d) :
    d.tx = tx ∧ d.network = network ∧ d.format = decodeFormat txid tx ∧
      (tx.ins = [] → d.inputs = [coinbaseInput]) ∧
      (tx.ins ≠ [] → decodeInputFrom lib tx.ins = .ok d.inputs) ∧
      decodeOutput lib tx network = .ok d.outputs := by
  unfold buildDecoded at h
  cases hins : tx.ins with
  | nil =>
    simp only [hins, List.length_nil, if_true] at h
    cases hout : decodeOutput lib tx network with
    | error f => simp [hout] at h
    | ok outputs =>
      simp only [hout] at h
      cases h
      simp
  | cons input rest =>
    simp only [hins, List.length_cons, Nat.succ_ne_zero, if_false, decodeInput] at h
    cases hin : decodeInputFrom lib (input :: rest) with
    | error f => simp [hin] at h
    | ok inputs =>
      cases hout : decodeOutput lib tx network with
      | error f => simp [hin, hout] at h
      | ok outputs =>
        simp only [hin, hout] at h
        cases h
        simp

/-- A decoded structure comes from the library parser with its built-in id, from the
library parser with the recomputed id, or from the fallback reader with the recomputed
id. -/
theorem TxDecoder_ok (lib : Lib) (rawtx : RawTx) (network : Network) (d : Decoded)
    (h : TxDecoder lib rawtx network = .ok (some d)) :
    (primaryDecode lib rawtx network = some d ∧
      ∃ tx, lib.fromHex rawtx network = some tx ∧
        ¬ (network.isZcash = true ∧
            (tx.joinsplits = true ∨ (tx.vShieldedSpend = true ∨ tx.vShieldedOutput = true))) ∧
        buildDecoded lib tx tx.id network = .ok d) ∨
    (∃ tx buffer, lib.fromHex rawtx network = some tx ∧ network.isZcash = true ∧
        (tx.joinsplits = true ∨ (tx.vShieldedSpend = true ∨ tx.vShieldedOutput = true)) ∧
        lib.bufferFrom rawtx = some buffer ∧
        buildDecoded lib tx (readHash lib buffer) network = .ok d) ∨
    (primaryDecode lib rawtx network = none ∧ network.isZcash = true ∧
      ∃ tx buffer, lib.bufferFrom rawtx = some buffer ∧ lib.decodeTx buffer = some tx ∧
        buildDecoded lib tx (readHash lib buffer) network = .ok d) := by
  unfold TxDecoder at h
  cases hp : primaryDecode lib rawtx network with
  | some d1 =>
    simp only [hp, Except.ok.injEq, Option.some.injEq] at h
    subst h
    unfold primaryDecode at hp
    cases hf : lib.fromHex rawtx network with
    | none => simp [hf] at hp
    | some tx =>
      simp only [hf] at hp
      by_cases hc : network.isZcash = true ∧
          (tx.joinsplits = true ∨ (tx.vShieldedSpend = true ∨ tx.vShieldedOutput = true))
      · rw [if_pos hc] at hp
        cases hb : lib.bufferFrom rawtx with
        | none => simp [hb] at hp
        | some buffer =>
          simp only [hb] at hp
          cases hbd : buildDecoded lib tx (readHash lib buffer) network with
          | error f => simp [hbd] at hp
          | ok d2 =>
            simp only [hbd, Option.some.injEq] at hp
            subst hp
            exact Or.inr (Or.inl ⟨tx, buffer, rfl, hc.1, hc.2, rfl, hbd⟩)
      · rw [if_neg hc] at hp
        cases hbd : buildDecoded lib tx tx.id network with
        | error f => simp [hbd] at hp
        | ok d2 =>
          simp only [hbd, Option.some.injEq] at hp
          subst hp
          exact Or.inl ⟨rfl, tx, rfl, hc, hbd⟩
  | none =>
    simp only [hp] at h
    unfold fallbackDecode at h
    by_cases hz : network.isZcash = true
    · rw [if_pos hz] at h
      cases hb : lib.bufferFrom rawtx with
      | none => simp [hb] at h
      | some buffer =>
        simp only [hb] at h
        cases ht : lib.decodeTx buffer with
        | none => simp [ht] at h
        | some tx =>
          simp only [ht] at h
          cases hbd : buildDecoded lib tx (readHash lib buffer) network with
          | error f => simp [hbd] at h
          | ok d2 =>
            simp only [hbd, Except.ok.injEq, Option.some.injEq] at h
            subst h
            exact Or.inr (Or.inr ⟨rfl, hz, tx, buffer, rfl, ht, hbd⟩)
    · rw [if_neg hz] at h
      simp at h

/-- Every decoded structure is the object literal built on its own library transaction. -/
theorem TxDecoder_build (lib : Lib) (rawtx : RawTx) (network : Network) (d : Decoded)
    (h : TxDecoder lib rawtx network = .ok (some d)) :
    ∃ tx txid, buildDecoded lib tx txid network = .ok d := by
  rcases TxDecoder_ok lib rawtx network d h with
    ⟨-, tx, -, -, hb⟩ | ⟨tx, buffer, -, -, -, -, hb⟩ | ⟨-, -, tx, buffer, -, -, hb⟩
  · exact ⟨tx, _, hb⟩
  · exact ⟨tx, _, hb⟩
  · exact ⟨tx, _, hb⟩

theorem readHash_eq (lib : Lib) (buffer : List Nat)
    (hlen : ∀ data, (lib.sha256 data).length = 32) :
    readHash lib buffer = toHex (lib.sha256 (lib.sha256 buffer)).reverse := by
  rw [readHash, List.take_of_length_le (le_of_eq (hlen _))]

/-- On a network that is not shielded-capable `TxDecoder` never throws, and a failed primary
parse gives `false`. -/
theorem TxDecoder_not_zcash (lib : Lib) (rawtx : RawTx) (network : Network)
    (hz : network.isZcash = false) :
    (primaryDecode lib rawtx network = none → TxDecoder lib rawtx network = .ok none) ∧
    ∃ result, TxDecoder lib rawtx network = .ok result := by
  cases hp : primaryDecode lib rawtx network with
  | none => simp [TxDecoder, hp, fallbackDecode, hz]
  | some d => simp [TxDecoder, hp]

theorem coinbase_decodes :
    ∃ d, TxDecoder chainLib (.hex "0400") sampleNetwork = .ok (some d) ∧ d.tx.ins = [] := by
  simp [TxDecoder, primaryDecode, chainLib, sampleNetwork, buildDecoded, coinbaseLibTx,
    decodeOutput, decodeOutputFrom, formatOutput]

theorem shielded_decodes :
    ∃ d, TxDecoder zcashLib (.hex "0500") zcashNetwork = .ok (some d) := by
  simp [TxDecoder, primaryDecode, zcashLib, zcashNetwork, buildDecoded, shieldedLibTx,
    decodeInput, decodeInputFrom, decodeInputEntry, decodeOutput, decodeOutputFrom,
    formatOutput]

/-- C13 fails on the code: on a shielded-capable network a raw transaction that neither the
library parser nor the fallback reader accepts makes `TxDecoder` throw; on any other network
the function never throws and a failed primary parse gives `false`. -/
theorem C13_fallback_failure_escapes :
    TxDecoder zcashLib (.hex "00") zcashNetwork = .error .libraryError ∧
    ∀ (lib : Lib) (rawtx : RawTx) (network : Network), network.isZcash = false →
      (primaryDecode lib rawtx network = none → TxDecoder lib rawtx network = .ok none) ∧
      ∃ result, TxDecoder lib rawtx network = .ok result := by
  refine ⟨?_, fun lib rawtx network hz => TxDecoder_not_zcash lib rawtx network hz⟩
  simp [TxDecoder, primaryDecode, fallbackDecode, zcashLib, zcashNetwork]

/-- C15 (coinbase sentinel): when `TxDecoder` returns a structure, by the primary or the
fallback path, for a transaction without inputs, its `inputs` list is one entry whose `txid`
is the string of 64 characters `0`; for a transaction with inputs the list has their length
and each entry is the decoding of the input at the same position; the list is never
empty. -/
theorem C15_coinbase_sentinel (lib : Lib) (rawtx : RawTx) (network : Network) (d : Decoded)
    (h : TxDecoder lib rawtx network = .ok (some d)) :
    (d.tx.ins = [] →
      ∃ vin, d.inputs = [vin] ∧ vin.txid = String.mk (List.replicate 64 '0')) ∧
    (d.tx.ins ≠ [] →
      d.inputs.length = d.tx.ins.length ∧
      List.Forall₂ (fun input vin => decodeInputEntry lib input = .ok vin)
        d.tx.ins d.inputs) ∧
    d.inputs ≠ [] := by
  obtain ⟨tx, txid, hb⟩ := TxDecoder_build lib rawtx network d h
  obtain ⟨htx, -, -, hnil, hcons, -⟩ := buildDecoded_ok lib tx txid network d hb
  subst htx
  refine ⟨fun h0 => ⟨coinbaseInput, hnil h0, by decide⟩, fun h0 => ?_, ?_⟩
  · have hf := decodeInputFrom_ok lib d.tx.ins d.inputs (hcons h0)
    exact ⟨hf.length_eq.symm, hf⟩
  · by_cases h0 : d.tx.ins = []
    · rw [hnil h0]
      simp
    · have hf := decodeInputFrom_ok lib d.tx.ins d.inputs (hcons h0)
      intro hc
      have hl := hf.length_eq
      rw [hc] at hl
      exact h0 (List.length_eq_zero.1 hl)

theorem C15_coinbase_sentinel_witness :
    ∃ d, TxDecoder chainLib (.hex "0400") sampleNetwork = .ok (some d) ∧
      (d.tx.ins = [] →
        ∃ vin, d.inputs = [vin] ∧ vin.txid = String.mk (List.replicate 64 '0')) ∧
      (d.tx.ins ≠ [] →
        d.inputs.length = d.tx.ins.length ∧
        List.Forall₂ (fun input vin => decodeInputEntry chainLib input = .ok vin)
          d.tx.ins d.inputs) ∧
      d.inputs ≠ [] := by
  obtain ⟨d, h, -⟩ := coinbase_decodes
  exact ⟨d, h, C15_coinbase_sentinel chainLib (.hex "0400") sampleNetwork d h⟩

/-- C16 (transaction-id substitution): on a shielded-capable network, when the library
transaction carries a shielded-pool field (join-splits, shielded spends or shielded outputs)
or only the fallback reader succeeded, the `format.txid` of the structure `TxDecoder`
returns is the hex of the reversed double SHA-256 of the raw bytes. -/
theorem C16_txid_substitution (lib : Lib) (rawtx : RawTx) (network : Network) (d : Decoded)
    (hz : network.isZcash = true)
    (hlen : ∀ data, (lib.sha256 data).length = 32)
    (h : TxDecoder lib rawtx network = .ok (some d))
    (hcase :
      (∃ tx, lib.fromHex rawtx network = some tx ∧
        (tx.joinsplits = true ∨ tx.vShieldedSpend = true ∨ tx.vShieldedOutput = true)) ∨
      primaryDecode lib rawtx network = none) :
    ∃ buffer, lib.bufferFrom rawtx = some buffer ∧
      d.format.txid = toHex (lib.sha256 (lib.sha256 buffer)).reverse := by
  rcases TxDecoder_ok lib rawtx network d h with
    ⟨hp, tx, hf, hn, -⟩ | ⟨tx, buffer, -, -, -, hbuf, hb⟩ | ⟨-, -, tx, buffer, hbuf, -, hb⟩
  · exfalso
    rcases hcase with ⟨tx1, hf1, hs⟩ | hnone
    · rw [hf] at hf1
      cases hf1
      exact hn ⟨hz, hs⟩
    · rw [hp] at hnone
      cases hnone
  · obtain ⟨-, -, hfmt, -⟩ := buildDecoded_ok lib tx _ network d hb
    exact ⟨buffer, hbuf, by rw [hfmt, decodeFormat, readHash_eq lib buffer hlen]⟩
  · obtain ⟨-, -, hfmt, -⟩ := buildDecoded_ok lib tx _ network d hb
    exact ⟨buffer, hbuf, by rw [hfmt, decodeFormat, readHash_eq lib buffer hlen]⟩

theorem C16_txid_substitution_witness :
    zcashNetwork.isZcash = true ∧
    (∀ data, (zcashLib.sha256 data).length = 32) ∧
    ((∃ tx, zcashLib.fromHex (.hex "0500") zcashNetwork = some tx ∧
        (tx.joinsplits = true ∨ tx.vShieldedSpend = true ∨ tx.vShieldedOutput = true)) ∨
      primaryDecode zcashLib (.hex "0500") zcashNetwork = none) ∧
    ∃ d, TxDecoder zcashLib (.hex "0500") zcashNetwork = .ok (some d) ∧
      ∃ buffer, zcashLib.bufferFrom (.hex "0500") = some buffer ∧
        d.format.txid = toHex (zcashLib.sha256 (zcashLib.sha256 buffer)).reverse := by
  have h1 : zcashNetwork.isZcash = true := rfl
  have h2 : ∀ data, (zcashLib.sha256 data).length = 32 := by
    intro data
    simp [zcashLib]
  have h3 : (∃ tx, zcashLib.fromHex (.hex "0500") zcashNetwork = some tx ∧
        (tx.joinsplits = true ∨ tx.vShieldedSpend = true ∨ tx.vShieldedOutput = true)) ∨
      primaryDecode zcashLib (.hex "0500") zcashNetwork = none :=
    Or.inl ⟨shieldedLibTx, by simp [zcashLib], Or.inl rfl⟩
  obtain ⟨d, h⟩ := shielded_decodes
  exact ⟨h1, h2, h3, d, h,
    C16_txid_substitution zcashLib (.hex "0500") zcashNetwork d h1 h2 h h3⟩

/-! ## formatTx: what a successful call holds -/

/-- The records of the decision table carry the `timestamp` and `confirmations` of the
transaction, a non-empty `type`, and none of the fields `formatTx` adds. -/
theorem classifySides_meta (tx : ParsedTx) (targetAddress network : String)
    (ins outs : SideAcc) :
    ∀ r ∈ (classifySides tx targetAddress network ins outs).records,
      r.stamp = none ∧ r.type ≠ "" ∧ r.timestamp = tx.timestamp ∧
        r.confirmations = tx.confirmations := by
  cases g1 : ins.sum.gtZero <;> cases g2 : outs.sum.gtZero <;>
  cases z1 : ins.sum.isZero <;> cases z2 : outs.sum.isZero <;>
  cases s1 : isSelfSend targetAddress (setToArray ins.addresses) <;>
  cases s2 : isSelfSend targetAddress (setToArray outs.addresses) <;>
  simp [classifySides, g1, g2, z1, z2, s1, s2, ParseResult.records]

theorem parse_records_meta (tx : ParsedTx) (targetAddress network : String)
    (skipTargetAddress : Bool) (res : ParseResult)
    (h : parseTransactionAddresses tx targetAddress network skipTargetAddress = .ok res) :
    ∀ r ∈ res.records,
      r.stamp = none ∧ r.type ≠ "" ∧ r.timestamp = tx.timestamp ∧
        r.confirmations = tx.confirmations := by
  unfold parseTransactionAddresses at h
  by_cases hf : tx.format = .cantParse
  · rw [if_pos hf] at h
    cases h
    simp [ParseResult.records]
  · rw [if_neg hf] at h
    cases h1 : scanSide targetAddress skipTargetAddress tx.inputs with
    | error f => simp [h1] at h
    | ok ins =>
      cases h2 : scanSide targetAddress skipTargetAddress tx.outputs with
      | error f => simp [h1, h2] at h
      | ok outs =>
        simp only [h1, h2, Except.ok.injEq] at h
        subst h
        exact classifySides_meta tx targetAddress network ins outs

/-- The transaction object `formatTx` hands to the classifier. -/
theorem formatTx_ok (lib : Lib) (now : Int) (transactionObj : TransactionObj)
    (targetAddress : String) (network : Network) (currentHeight : Int) (res : ParseResult)
    (h : formatTx lib now transactionObj targetAddress network currentHeight
      = .ok (some res)) :
    ∃ rawIns raw out txInsDecoded formattedTx,
      transactionObj.rawIns = some rawIns ∧ transactionObj.rawOut = some raw ∧
      TxDecoder lib (.hex raw) network = .ok (some out) ∧
      decodeIns lib rawIns network = .ok txInsDecoded ∧
      parseTransactionAddresses
        { format := .decoded out.format,
          inputs := resolveInputs txInsDecoded out.inputs,
          outputs := out.outputs.map TxEntry.vout,
          height := transactionObj.height,
          timestamp := if transactionObj.height = 0 then now else transactionObj.timestamp,
          confirmations :=
            if transactionObj.height = 0 then 0 else currentHeight - transactionObj.height }
        targetAddress network.coin false = .ok formattedTx ∧
      res = stampResult transactionObj out formattedTx := by
  unfold formatTx at h
  cases hr : transactionObj.rawIns with
  | none => simp [hr] at h
  | some rawIns =>
    simp only [hr] at h
    by_cases hc : (!rawIns.all (fun txIn => !txIn.hasCode)) = true
    · rw [if_pos hc] at h
      simp at h
    · rw [if_neg hc] at h
      cases hraw : transactionObj.rawOut with
      | none =>
        simp only [hraw] at h
        cases hins : decodeIns lib rawIns network <;> simp [hins] at h
      | some raw =>
        simp only [hraw] at h
        by_cases hne : raw ≠ ""
        · rw [if_pos hne] at h
          cases hd : TxDecoder lib (.hex raw) network with
          | error f => simp [hd] at h
          | ok txOutDecoded =>
            simp only [hd] at h
            cases hins : decodeIns lib rawIns network with
            | error f => simp [hins] at h
            | ok txInsDecoded =>
              simp only [hins] at h
              cases txOutDecoded with
              | none => simp at h
              | some out =>
                simp only at h
                cases hp : parseTransactionAddresses
                    { format := .decoded out.format,
                      inputs := resolveInputs txInsDecoded out.inputs,
                      outputs := out.outputs.map TxEntry.vout,
                      height := transactionObj.height,
                      timestamp :=
                        if transactionObj.height = 0 then now else transactionObj.timestamp,
                      confirmations :=
                        if transactionObj.height = 0 then 0
                        else currentHeight - transactionObj.height }
                    targetAddress network.coin false with
                | error f => simp [hp] at h
                | ok formattedTx =>
                  simp only [hp, Except.ok.injEq, Option.some.injEq] at h
                  exact ⟨rawIns, raw, out, txInsDecoded, formattedTx, rfl, rfl, hd, hins, hp,
                    h.symm⟩
        · rw [if_neg hne] at h
          cases hins : decodeIns lib rawIns network <;> simp [hins] at h

theorem stampResult_records (transactionObj : TransactionObj) (txOutDecoded : Decoded)
    (res : ParseResult) :
    ∀ r ∈ (stampResult transactionObj txOutDecoded res).records,
      ∃ r0 ∈ res.records, r.timestamp = r0.timestamp ∧ r.confirmations = r0.confirmations := by
  cases res with
  | single r0 =>
    by_cases h : r0.type ≠ ""
    · simp [stampResult, h, ParseResult.records]
    · simp [stampResult, h, ParseResult.records]
  | array rs =>
    intro r hr
    exact ⟨r, hr, rfl, rfl⟩

/-- The pair of the change scenario, formatted from its raw transactions: neither record has
the fields `formatTx` adds. -/
theorem changeBundle_eval :
    ∃ sent received,
      formatTx chainLib 1700000000 changeBundle "A" sampleNetwork 12
        = .ok (some (.array [sent, received])) ∧
      sent.type = "sent" ∧ received.type = "received" ∧
      sent.stamp = none ∧ received.stamp = none := by
  have h : (match formatTx chainLib 1700000000 changeBundle "A" sampleNetwork 12 with
      | .ok (some (.array [sent, received])) =>
        decide (sent.type = "sent" ∧ received.type = "received" ∧
          sent.stamp = none ∧ received.stamp = none)
      | _ => false) = true := by
    decide!
  split at h
  · next sent received heq => exact ⟨sent, received, heq, of_decide_eq_true h⟩
  · cases h

/-- The unconfirmed bundle is classified. -/
theorem mempoolBundle_eval :
    ∃ res, formatTx sampleLib 1700000000 mempoolBundle "A" sampleNetwork 12
      = .ok (some res) := by
  simp [formatTx, mempoolBundle, decodeIns, decodeParents,
    TxDecoder, primaryDecode, sampleLib, sampleNetwork, buildDecoded, sampleLibTx,
    decodeInput, decodeInputFrom, decodeInputEntry, decodeOutput, decodeOutputFrom,
    formatOutput, resolveInputs, resolveInput, List.enum, List.enumFrom,
    parseTransactionAddresses, scanSide, parseSide, scanEntries, scanEntry, entryNumber,
    entryAddress]

/-- C11 as stated fails: the two records of the sent+received pair that `formatTx` returns
carry none of the fields `height`, `blocktime`, `hex`, `locktime`. -/
theorem C11_pair_not_stamped_counterexample :
    ∃ sent received,
      formatTx chainLib 1700000000 changeBundle "A" sampleNetwork 12
        = .ok (some (.array [sent, received])) ∧
      sent.stamp = none ∧ received.stamp = none := by
  obtain ⟨sent, received, h, -, -, h1, h2⟩ := changeBundle_eval
  exact ⟨sent, received, h, h1, h2⟩

/-- C11 (metadata stamping), amended: whenever `formatTx` succeeds, a result that is one
record carries `height = transactionObj.height`, `blocktime = transactionObj.timestamp`,
`hex = transactionObj.rawOut` and `locktime` = the locktime of the decoded transaction; a
result that is an array (the sent+received pair) is returned as the classifier built it,
without these fields. -/
theorem C11_stamping (lib : Lib) (now : Int) (transactionObj : TransactionObj)
    (targetAddress : String) (network : Network) (currentHeight : Int) (res : ParseResult)
    (h : formatTx lib now transactionObj targetAddress network currentHeight
      = .ok (some res)) :
    ∃ raw out, transactionObj.rawOut = some raw ∧
      TxDecoder lib (.hex raw) network = .ok (some out) ∧
      (∀ r, res = .single r →
        ∃ st, r.stamp = some st ∧ st.height = transactionObj.height ∧
          st.blocktime = transactionObj.timestamp ∧ st.hex = transactionObj.rawOut ∧
          st.locktime = out.tx.locktime) ∧
      (∀ rs, res = .array rs → ∀ r ∈ rs, r.stamp = none) := by
  obtain ⟨rawIns, raw, out, txInsDecoded, formattedTx, -, hraw, hd, -, hp, hres⟩ :=
    formatTx_ok lib now transactionObj targetAddress network currentHeight res h
  have hmeta := parse_records_meta _ _ _ _ _ hp
  obtain ⟨tx, txid, hb⟩ := TxDecoder_build lib (.hex raw) network out hd
  obtain ⟨htx, -, hfmt, -⟩ := buildDecoded_ok lib tx txid network out hb
  have hlock : out.format.locktime = out.tx.locktime := by
    rw [hfmt, htx]
    rfl
  refine ⟨raw, out, hraw, hd, ?_, ?_⟩
  · intro r hr
    cases formattedTx with
    | single r0 =>
      have h0 := (hmeta r0 (by simp [ParseResult.records])).2.1
      rw [hres, stampResult_single _ _ _ h0] at hr
      cases hr
      exact ⟨stampOf transactionObj out, rfl, rfl, rfl, rfl, hlock⟩
    | array rs =>
      rw [hres] at hr
      simp [stampResult] at hr
  · intro rs hr r hmem
    cases formattedTx with
    | single r0 =>
      have h0 := (hmeta r0 (by simp [ParseResult.records])).2.1
      rw [hres, stampResult_single _ _ _ h0] at hr
      cases hr
    | array rs0 =>
      rw [hres] at hr
      simp only [stampResult, ParseResult.array.injEq] at hr
      subst hr
      exact (hmeta r hmem).1

theorem C11_stamping_witness :
    ∃ res, formatTx sampleLib 1700000000 notFoundBundle "A" sampleNetwork 12
        = .ok (some res) ∧
      ∃ raw out, notFoundBundle.rawOut = some raw ∧
        TxDecoder sampleLib (.hex raw) sampleNetwork = .ok (some out) ∧
        (∀ r, res = .single r →
          ∃ st, r.stamp = some st ∧ st.height = notFoundBundle.height ∧
            st.blocktime = notFoundBundle.timestamp ∧ st.hex = notFoundBundle.rawOut ∧
            st.locktime = out.tx.locktime) ∧
        (∀ rs, res = .array rs → ∀ r ∈ rs, r.stamp = none) := by
  obtain ⟨r, h, -⟩ := notFoundBundle_eval
  exact ⟨_, h, C11_stamping sampleLib 1700000000 notFoundBundle "A" sampleNetwork 12 _ h⟩

/-- C12 fails on the code: an index out of the range of the parent's outputs resolves to
`undefined`, not to `false`, and on the bundle whose input names output 1 of a parent with
one output the classifier throws a `TypeError`. -/
theorem C12_out_of_range_throws :
    (∀ (txInsDecoded : List (Option Decoded)) (i : Nat) (input : Vin) (parent : Decoded)
        (n : Nat), txInsDecoded.get? i = some (some parent) → input.n = some n →
        parent.outputs.length ≤ n → resolveInput txInsDecoded i input = .undefined) ∧
    formatTx chainLib 1700000000 strayBundle "A" sampleNetwork 12 = .error .typeError := by
  constructor
  · intro txInsDecoded i input parent n h1 h2 h3
    unfold resolveInput
    simp only [h1, h2, List.get?_eq_none.2 h3]
  · simp [formatTx, strayBundle, RawTx.hasCode, RawTx.notFound, decodeIns, decodeParents,
      TxDecoder, primaryDecode, chainLib, sampleNetwork, buildDecoded, strayLibTx, parentLibTx,
      decodeInput, decodeInputFrom, decodeInputEntry, decodeOutput, decodeOutputFrom,
      formatOutput, resolveInputs, resolveInput, List.enum, List.enumFrom,
      parseTransactionAddresses, scanSide, parseSide, scanEntries, scanEntry]

/-- C14 (confirmation depth): whenever `formatTx` succeeds, every record has
`confirmations = 0` and `timestamp` = the time of the call when the height is 0, and
`confirmations = currentHeight - height` and `timestamp = transactionObj.timestamp`
otherwise. -/
theorem C14_confirmation_depth (lib : Lib) (now : Int) (transactionObj : TransactionObj)
    (targetAddress : String) (network : Network) (currentHeight : Int) (res : ParseResult)
    (h : formatTx lib now transactionObj targetAddress network currentHeight
      = .ok (some res)) :
    ∀ r ∈ res.records,
      (transactionObj.height = 0 → r.confirmations = 0 ∧ r.timestamp = now) ∧
      (transactionObj.height ≠ 0 →
        r.confirmations = currentHeight - transactionObj.height ∧
        r.timestamp = transactionObj.timestamp) := by
  obtain ⟨rawIns, raw, out, txInsDecoded, formattedTx, -, -, -, -, hp, hres⟩ :=
    formatTx_ok lib now transactionObj targetAddress network currentHeight res h
  have hmeta := parse_records_meta _ _ _ _ _ hp
  intro r hr
  rw [hres] at hr
  obtain ⟨r0, hr0, ht, hc⟩ := stampResult_records transactionObj out formattedTx r hr
  obtain ⟨-, -, ht0, hc0⟩ := hmeta r0 hr0
  rw [ht, hc, ht0, hc0]
  constructor
  · intro hz
    simp [hz]
  · intro hz
    simp [hz]

theorem C14_confirmation_depth_witness :
    ∃ res, formatTx sampleLib 1700000000 mempoolBundle "A" sampleNetwork 12
        = .ok (some res) ∧
      ∀ r ∈ res.records,
        (mempoolBundle.height = 0 → r.confirmations = 0 ∧ r.timestamp = 1700000000) ∧
        (mempoolBundle.height ≠ 0 →
          r.confirmations = 12 - mempoolBundle.height ∧
          r.timestamp = mempoolBundle.timestamp) := by
  obtain ⟨res, h⟩ := mempoolBundle_eval
  exact ⟨res, h,
    C14_confirmation_depth sampleLib 1700000000 mempoolBundle "A" sampleNetwork 12 res h⟩

end VerusMobile
